import Mathlib

/-!
Verification development for the grid trading engine in `grid_bot/main.py`.

The engine is embedded shallowly: Python floats are modelled as exact
rationals (`ℚ`), Python `round(x, 6)` as round-half-to-even at six decimal
places, exchange ("gateway") calls as an explicit oracle record whose fallible
calls return `Except` values, and the sqlite ledger as a list of rows with an
auto-increment id counter.  Every definition is translated from the source;
comments on definitions record the Python lines they embed and any Python
artefact (exception, truthiness) that the embedding renders explicitly.
-/

namespace GridBot

/-- Decidable equality for `Except`, used to evaluate the model on concrete
inputs. -/
instance exceptDecEq {ε α : Type} [DecidableEq ε] [DecidableEq α] :
    DecidableEq (Except ε α) := fun x y =>
  match x, y with
  | Except.ok a, Except.ok b =>
      if h : a = b then isTrue (by rw [h]) else isFalse (fun hh => by cases hh; exact h rfl)
  | Except.error a, Except.error b =>
      if h : a = b then isTrue (by rw [h]) else isFalse (fun hh => by cases hh; exact h rfl)
  | Except.ok _, Except.error _ => isFalse (fun hh => by cases hh)
  | Except.error _, Except.ok _ => isFalse (fun hh => by cases hh)

/-- Order side; Python uses the strings "buy" and "sell". -/
inductive Side
  | buy
  | sell
deriving DecidableEq

/-- The opposite side, from `create_mirror_order`:
`side = "sell" if filled_level["side"] == "buy" else "buy"`. -/
def mirrorSide : Side → Side
  | Side.buy => Side.sell
  | Side.sell => Side.buy

/-- Python's `round` to an integer: round half to even (banker's rounding). -/
def roundHalfToEven (x : ℚ) : ℤ :=
  let f : ℤ := ⌊x⌋
  let r : ℚ := x - f
  if r < 1/2 then f else if 1/2 < r then f + 1 else if f % 2 = 0 then f else f + 1

/-- Python's `round(x, 6)`, used for every price in the source
(`round(buy_price, 6)`, `round(sell_price, 6)`, `round(price, 6)`). -/
def round6 (x : ℚ) : ℚ := (roundHalfToEven (x * 1000000) : ℚ) / 1000000

/-- Grid parameters once `calculate_risk_parameters` has filled them in:
`grid_levels`, `grid_spread`, `level_amount`, `log_multiplier`, `symbols`. -/
structure GridConfig where
  gridLevels : Nat
  gridSpread : ℚ
  levelAmount : ℚ
  logMultiplier : ℚ
  symbols : List String
deriving DecidableEq

/-- The per-level distance of `create_grid`, `create_mirror_order` and
`check_and_recreate_orders`: `self.config.grid_spread * (log_multiplier ** level)`. -/
def levelDistance (cfg : GridConfig) (i : Nat) : ℚ :=
  cfg.gridSpread * cfg.logMultiplier ^ i

/-- One in-memory grid level, the dict
`{"level": .., "side": .., "amount": .., "price": .., "order_id": .., "status": ..}`.
`create_grid` builds its dicts without an `order_id` key and the database row
holds `NULL` there; both are modelled as `none`.  Statuses are the strings the
code uses: "pending", "active", and whatever string the exchange reports
("filled", "canceled", ...). -/
structure GridLevel where
  level : Nat
  side : Side
  amount : ℚ
  price : ℚ
  orderId : Option String
  status : String
deriving DecidableEq

/-- Buy level `i` of `create_grid`:
`buy_price = round(current_price * (1 - distance), 6)`, amount
`self.config.level_amount / current_price`, status "pending". -/
def buyLevelAt (cfg : GridConfig) (currentPrice : ℚ) (i : Nat) : GridLevel :=
  { level := i, side := Side.buy, amount := cfg.levelAmount / currentPrice,
    price := round6 (currentPrice * (1 - levelDistance cfg i)),
    orderId := none, status := "pending" }

/-- Sell level `i` of `create_grid`:
`sell_price = round(current_price * (1 + distance), 6)`. -/
def sellLevelAt (cfg : GridConfig) (currentPrice : ℚ) (i : Nat) : GridLevel :=
  { level := i, side := Side.sell, amount := cfg.levelAmount / currentPrice,
    price := round6 (currentPrice * (1 + levelDistance cfg i)),
    orderId := none, status := "pending" }

/-- `GridManager.create_grid`, the pure ladder construction: the first loop
appends the `grid_levels` buy levels, the second the `grid_levels` sell
levels.  (The surrounding method also stores the list into `self.grids` and
calls `save_grid_to_db`; those effects are applied where `create_grid` is
called in the startup model below.) -/
def create_grid (cfg : GridConfig) (currentPrice : ℚ) : List GridLevel :=
  (List.range cfg.gridLevels).map (buyLevelAt cfg currentPrice)
    ++ (List.range cfg.gridLevels).map (sellLevelAt cfg currentPrice)

/-- One row of the `RISK_LEVELS` table: `deposit_percent`, `grid_levels`, `spread`. -/
structure RiskParams where
  depositPercent : ℚ
  gridLevels : Nat
  spread : ℚ
deriving DecidableEq

/-- The `RISK_LEVELS` dict, keys 1..20. -/
def RISK_LEVELS : Int → Option RiskParams
  | 1 => some ⟨60, 8, 0.002⟩
  | 2 => some ⟨70, 10, 0.0015⟩
  | 3 => some ⟨80, 12, 0.001⟩
  | 4 => some ⟨90, 15, 0.0008⟩
  | 5 => some ⟨95, 20, 0.0005⟩
  | 6 => some ⟨98, 25, 0.0004⟩
  | 7 => some ⟨99, 30, 0.0003⟩
  | 8 => some ⟨99.5, 35, 0.00025⟩
  | 9 => some ⟨99.8, 40, 0.0002⟩
  | 10 => some ⟨99.9, 45, 0.00015⟩
  | 11 => some ⟨99.95, 50, 0.00012⟩
  | 12 => some ⟨99.98, 55, 0.0001⟩
  | 13 => some ⟨99.99, 60, 0.00008⟩
  | 14 => some ⟨99.995, 65, 0.00006⟩
  | 15 => some ⟨99.998, 70, 0.00005⟩
  | 16 => some ⟨99.999, 75, 0.00004⟩
  | 17 => some ⟨99.9995, 80, 0.00003⟩
  | 18 => some ⟨99.9998, 85, 0.000025⟩
  | 19 => some ⟨99.9999, 90, 0.00002⟩
  | 20 => some ⟨99.99995, 95, 0.000015⟩
  | _ => none

/-- The environment-derived raw configuration consumed by
`GridConfig.__post_init__`: `BYBIT_API_KEY`, `BYBIT_API_SECRET`, `SYMBOLS`
(`none` when the variable is absent), `RISK_LEVEL` and `LOG_MULTIPLIER`. -/
structure RawEnv where
  apiKey : Option String
  apiSecret : Option String
  symbolsEnv : Option String
  riskLevel : Int
  logMultiplier : ℚ
deriving DecidableEq

/-- Split a character list at commas (`env_symbols.split(",")`). -/
def splitCommaAux : List Char → List Char → List (List Char)
  | [], acc => [acc.reverse]
  | c :: cs, acc =>
      if c = ',' then acc.reverse :: splitCommaAux cs [] else splitCommaAux cs (c :: acc)

/-- Python `str.strip()` restricted to spaces, on a character list. -/
def stripSpaces (cs : List Char) : List Char :=
  ((cs.dropWhile (fun c => c = ' ')).reverse.dropWhile (fun c => c = ' ')).reverse

/-- `self.symbols = [s.strip() for s in env_symbols.split(",")]`. -/
def parseSymbols (s : String) : List String :=
  (splitCommaAux s.data []).map (fun cs => String.mk (stripSpaces cs))

/-- Python truthiness of an optional string (`not self.api_key`): falsy when
the variable is absent or the empty string. -/
def truthyStr : Option String → Bool
  | none => false
  | some s => !(s = "")

/-- `GridConfig.__post_init__`: raises `ValueError` (modelled as `.error`)
when `BYBIT_API_KEY`, `BYBIT_API_SECRET` or `SYMBOLS` is missing or when
`RISK_LEVEL` is outside the `RISK_LEVELS` table.  On success it returns the
parsed symbol list.  Note that `log_multiplier` is *never* inspected. -/
def postInitValidate (env : RawEnv) : Except String (List String) :=
  if truthyStr env.apiKey = false then Except.error "BYBIT_API_KEY missing"
  else if truthyStr env.apiSecret = false then Except.error "BYBIT_API_SECRET missing"
  else
    match env.symbolsEnv with
    | none => Except.error "SYMBOLS missing"
    | some s =>
        if s = "" then Except.error "SYMBOLS missing"
        else if (RISK_LEVELS env.riskLevel).isNone then Except.error "RISK_LEVEL out of range"
        else Except.ok (parseSymbols s)

/-- `GridConfig.calculate_risk_parameters`: derives `grid_levels`,
`grid_spread` and `level_amount` from the risk table, the observed deposit and
the symbol count; `none` when the risk level is unknown (the `ValueError`
branch). -/
def calculate_risk_parameters (env : RawEnv) (symbols : List String)
    (totalDeposit : ℚ) : Option GridConfig :=
  match RISK_LEVELS env.riskLevel with
  | none => none
  | some rc =>
      let tradingDeposit := totalDeposit * rc.depositPercent / 100
      let depositPerPair := tradingDeposit / (symbols.length : ℚ)
      some { gridLevels := rc.gridLevels, gridSpread := rc.spread,
             levelAmount := depositPerPair / (rc.gridLevels : ℚ),
             logMultiplier := env.logMultiplier, symbols := symbols }

/-- The balance entry for one currency inside a ccxt `fetch_balance()` answer:
the code probes the keys `free`, `available`, `total` in that order. -/
structure BalanceFields where
  free : Option ℚ
  available : Option ℚ
  total : Option ℚ
deriving DecidableEq

/-- One entry of a ccxt `fetch_open_orders` answer, as the code reads it:
`order['side']`, `order['amount']`, `order['price']`. -/
structure OpenOrder where
  side : Side
  amount : ℚ
  price : ℚ
deriving DecidableEq

/-- The exchange order dict consumed by `sync_orders_with_exchange`:
`order["status"]` and `order.get('price')` (absent key modelled as `none`). -/
structure OrderInfo where
  status : String
  price : Option ℚ
deriving DecidableEq

/-- The Exchange Gateway oracle: one field per ccxt call the engine makes.
A Python exception raised by a call is the `Except.error` value; a currency
missing from `fetch_balance` is `.ok none`. -/
structure ExchangeView where
  tickerLast : String → Option ℚ
  usdtBalance : Except String (Option BalanceFields)
  baseBalance : String → Except String (Option BalanceFields)
  allOpenOrders : Except String (List OpenOrder)
  openOrdersFor : String → Except String (List OpenOrder)
  placeOrderRes : String → Side → ℚ → ℚ → Option String
  orderQuery : String → String → Except String OrderInfo

/-- The `free`/`available`/`total` fallback chain of `BybitClient.get_balance`
and `get_base_balance`; 0.0 when none of the keys is present. -/
def pickBalance (bf : BalanceFields) : ℚ :=
  match bf.free with
  | some v => v
  | none =>
      match bf.available with
      | some v => v
      | none =>
          match bf.total with
          | some v => v
          | none => 0

/-- `BybitClient.get_balance`: free USDT; 0.0 when `fetch_balance` raises or
has no usable USDT entry (every failure path of the method returns 0.0). -/
def get_balance (e : ExchangeView) : ℚ :=
  match e.usdtBalance with
  | Except.error _ => 0
  | Except.ok none => 0
  | Except.ok (some bf) => pickBalance bf

/-- `BybitClient.get_base_balance`: free balance of the base currency, with
the same fallbacks and the same 0.0 on failure. -/
def get_base_balance (e : ExchangeView) (currency : String) : ℚ :=
  match e.baseBalance currency with
  | Except.error _ => 0
  | Except.ok none => 0
  | Except.ok (some bf) => pickBalance bf

/-- Sum of `amount * price` over the open buy orders of a
`fetch_open_orders()` answer (the loop body of `get_locked_usdt_in_orders`). -/
def lockedBuyValue (orders : List OpenOrder) : ℚ :=
  orders.foldl (fun acc o => if o.side = Side.buy then acc + o.amount * o.price else acc) 0

/-- Sum of `amount` over the open sell orders of a `fetch_open_orders(symbol)`
answer (the loop body of `get_locked_base_in_orders`). -/
def lockedSellAmount (orders : List OpenOrder) : ℚ :=
  orders.foldl (fun acc o => if o.side = Side.sell then acc + o.amount else acc) 0

/-- `GridManager.get_locked_usdt_in_orders`: USDT reserved by open buy orders
across all symbols (`fetch_open_orders()` with no symbol argument); 0.0 when
the query raises. -/
def get_locked_usdt_in_orders (e : ExchangeView) : ℚ :=
  match e.allOpenOrders with
  | Except.error _ => 0
  | Except.ok orders => lockedBuyValue orders

/-- `GridManager.get_locked_base_in_orders`: base currency reserved by open
sell orders on one symbol (`fetch_open_orders(symbol)`); 0.0 when the query
raises. -/
def get_locked_base_in_orders (e : ExchangeView) (symbol : String) : ℚ :=
  match e.openOrdersFor symbol with
  | Except.error _ => 0
  | Except.ok orders => lockedSellAmount orders

/-- `symbol.split('/')[0]`: the base currency of a pair. -/
def baseCurrency (symbol : String) : String :=
  String.mk (symbol.data.takeWhile (fun c => c ≠ '/'))

/-- `GridManager.check_available_balance`.  Buy: `available_usdt - locked_usdt
>= required_usdt` with `required_usdt = amount * price`.  Sell:
`available_base - locked_base >= amount`.  The body is wrapped in
`try/except: return False`, but every call inside already swallows its own
errors, so the function is total with these two branches. -/
def check_available_balance (e : ExchangeView) (symbol : String) (side : Side)
    (amount price : ℚ) : Bool :=
  match side with
  | Side.buy =>
      let requiredUsdt := amount * price
      let availableUsdt := get_balance e
      let lockedUsdt := get_locked_usdt_in_orders e
      decide (requiredUsdt ≤ availableUsdt - lockedUsdt)
  | Side.sell =>
      let availableBase := get_base_balance e (baseCurrency symbol)
      let lockedBase := get_locked_base_in_orders e symbol
      decide (amount ≤ availableBase - lockedBase)

/-- One row of the sqlite `grids` table: `id` (INTEGER PRIMARY KEY
AUTOINCREMENT), `symbol`, `level`, `side`, `amount`, `price`, `order_id`,
`status`. -/
structure Row where
  id : Nat
  symbol : String
  level : Nat
  side : Side
  amount : ℚ
  price : ℚ
  orderId : Option String
  status : String
deriving DecidableEq

/-- The uniqueness-constraint key `(symbol, level, side)` of
`idx_grids_unique`. -/
def rowKey (r : Row) : String × Nat × Side := (r.symbol, r.level, r.side)

/-- The `grids` table together with the next auto-increment id. -/
structure GridsDb where
  rows : List Row
  nextId : Nat
deriving DecidableEq

/-- The table satisfies the `idx_grids_unique` constraint: no two rows share
`(symbol, level, side)`. -/
def keysDistinct (rows : List Row) : Prop :=
  rows.Pairwise (fun a b => rowKey a ≠ rowKey b)

instance : DecidablePred keysDistinct := fun rows =>
  List.instDecidablePairwise rows

/-- Well-formedness maintained by sqlite itself: row ids are pairwise distinct
and below the auto-increment counter. -/
def GridsDb.wf (db : GridsDb) : Prop :=
  (db.rows.map Row.id).Nodup ∧ ∀ r ∈ db.rows, r.id < db.nextId

/-- One `INSERT ... ON CONFLICT(symbol, level, side) DO UPDATE SET
amount=excluded.amount, price=excluded.price, status='pending',
order_id=NULL` of `save_grid_to_db`.  When the table holds legacy duplicate
rows the `CREATE UNIQUE INDEX` of `init_database` failed, the `ON CONFLICT`
target has no matching index, the statement raises, `save_grid_to_db` catches
the exception and the connection is closed without commit — so the write is a
no-op; that branch is the `keysDistinct` guard. -/
def upsertPending (db : GridsDb) (symbol : String) (lvl : Nat) (sd : Side)
    (amount price : ℚ) : GridsDb :=
  if ¬ keysDistinct db.rows then db
  else if db.rows.any (fun r => rowKey r = (symbol, lvl, sd)) then
    { db with rows := db.rows.map (fun r =>
        if rowKey r = (symbol, lvl, sd) then
          { r with amount := amount, price := price, status := "pending", orderId := none }
        else r) }
  else
    { rows := db.rows ++ [{ id := db.nextId, symbol := symbol, level := lvl, side := sd,
                            amount := amount, price := price, orderId := none,
                            status := "pending" }],
      nextId := db.nextId + 1 }

/-- `GridManager.save_grid_to_db(symbol, grid)`: one upsert per level of the
grid. -/
def save_grid_to_db (db : GridsDb) (symbol : String) (grid : List GridLevel) : GridsDb :=
  grid.foldl (fun d l => upsertPending d symbol l.level l.side l.amount l.price) db

/-- `GridManager.update_order_status_in_db`: `UPDATE grids SET status = ?
WHERE symbol = ? AND level = ? AND side = ?`. -/
def update_order_status_in_db (db : GridsDb) (symbol : String) (lvl : Nat)
    (sd : Side) (status : String) : GridsDb :=
  { db with rows := db.rows.map (fun r =>
      if rowKey r = (symbol, lvl, sd) then { r with status := status } else r) }

/-- `GridManager.update_order_in_db`: `UPDATE grids SET price = ?, order_id =
?, status = ? WHERE symbol = ? AND level = ? AND side = ?`. -/
def update_order_in_db (db : GridsDb) (symbol : String) (lvl : Nat) (sd : Side)
    (price : ℚ) (orderId : Option String) (status : String) : GridsDb :=
  { db with rows := db.rows.map (fun r =>
      if rowKey r = (symbol, lvl, sd) then
        { r with price := price, orderId := orderId, status := status }
      else r) }

/-- Whether `r` survives the compaction `DELETE FROM grids WHERE id NOT IN
(SELECT MAX(id) FROM grids GROUP BY symbol, level, side)` of
`load_existing_grids`: its id is maximal among the rows sharing its key. -/
def isLatestRow (rows : List Row) (r : Row) : Bool :=
  rows.all (fun s => !(decide (rowKey s = rowKey r)) || decide (s.id ≤ r.id))

/-- The compacted table: one surviving row per key (the freshest by id). -/
def keepLatest (rows : List Row) : List Row := rows.filter (isLatestRow rows)

/-- sqlite's TEXT ordering on the `side` column: 'buy' < 'sell'. -/
def sideRank : Side → Nat
  | Side.buy => 0
  | Side.sell => 1

/-- The `ORDER BY level, side` sort key of `load_existing_grids`. -/
def rowSortKey (r : Row) : Nat := 2 * r.level + sideRank r.side

/-- `SELECT ... FROM grids WHERE symbol = ? ORDER BY level, side` on the
compacted table.  `List.insertionSort` is a stable sort, so it realises the
SQL ordering exactly (ties cannot occur between distinct keys of one
symbol). -/
def rowsForSymbol (rows : List Row) (symbol : String) : List Row :=
  List.insertionSort (fun a b => rowSortKey a ≤ rowSortKey b)
    (rows.filter (fun r => decide (r.symbol = symbol)))

/-- A database row read back into the in-memory dict shape. -/
def toLevel (r : Row) : GridLevel :=
  { level := r.level, side := r.side, amount := r.amount, price := r.price,
    orderId := r.orderId, status := r.status }

/-- `SELECT DISTINCT symbol FROM grids`, in first-appearance order. -/
def distinctSymbols (rows : List Row) : List String :=
  rows.foldl (fun acc r => if r.symbol ∈ acc then acc else acc ++ [r.symbol]) []

/-- The `self.grids` dict: one grid (list of levels) per symbol. -/
abbrev Grids := List (String × List GridLevel)

/-- `symbol in self.grids` / `self.grids[symbol]`. -/
def lookupGrid : Grids → String → Option (List GridLevel)
  | [], _ => none
  | (s, g) :: rest, symbol => if s = symbol then some g else lookupGrid rest symbol

/-- `self.grids[symbol] = grid` (dict assignment: overwrite or insert). -/
def setGrid : Grids → String → List GridLevel → Grids
  | [], symbol, g => [(symbol, g)]
  | (s, g0) :: rest, symbol, g =>
      if s = symbol then (s, g) :: rest else (s, g0) :: setGrid rest symbol g

/-- `GridManager.load_existing_grids`: first the duplicate-compaction DELETE
(committed), then one sorted SELECT per distinct symbol. -/
def load_existing_grids (db : GridsDb) : Grids × GridsDb :=
  let rows' := keepLatest db.rows
  ((distinctSymbols rows').map (fun s => (s, (rowsForSymbol rows' s).map toLevel)),
   { db with rows := rows' })

/-- In-memory mutation of the level dict with identity `(lvl, sd)` inside a
grid list.  Python mutates the dict object in place; grids hold at most one
dict per identity, so updating every match is the same mutation. -/
def updateLevelInGrid (g : List GridLevel) (lvl : Nat) (sd : Side)
    (f : GridLevel → GridLevel) : List GridLevel :=
  g.map (fun x => if x.level = lvl ∧ x.side = sd then f x else x)

/-- The `for i, lvl in enumerate(...): if match: replace; break / else:
append` idiom of `create_mirror_order`. -/
def replaceFirstOrAppend : List GridLevel → Nat → Side → GridLevel → List GridLevel
  | [], _, _, nl => [nl]
  | l :: ls, lvl, sd, nl =>
      if l.level = lvl ∧ l.side = sd then nl :: ls
      else l :: replaceFirstOrAppend ls lvl sd nl

/-- `GridManager.create_mirror_order`: opposite side, price
`round(filled_price * (1 ± spread * log_multiplier ** level), 6)`, same
amount; skipped when the Balance Guard refuses or `place_order` returns `{}`
(its own `except` branch); on success the in-memory slot of
`(level, opposite side)` is replaced and `update_order_in_db` stores
`(price, order_id, 'active')`. -/
def create_mirror_order (cfg : GridConfig) (e : ExchangeView) (symbol : String)
    (grid : List GridLevel) (db : GridsDb) (filledLevel : GridLevel)
    (filledPrice : ℚ) : List GridLevel × GridsDb :=
  let sd := mirrorSide filledLevel.side
  let levelIndex := filledLevel.level
  let d := levelDistance cfg levelIndex
  let price := round6 (if sd = Side.sell then filledPrice * (1 + d) else filledPrice * (1 - d))
  let amount := filledLevel.amount
  if check_available_balance e symbol sd amount price = false then (grid, db)
  else
    match e.placeOrderRes symbol sd amount price with
    | none => (grid, db)
    | some oid =>
        let newLevel : GridLevel :=
          { level := levelIndex, side := sd, amount := amount, price := price,
            orderId := some oid, status := "active" }
        (replaceFirstOrAppend grid levelIndex sd newLevel,
         update_order_in_db db symbol levelIndex sd price (some oid) "active")

/-- The loop body of `place_grid_orders` for one pending candidate: Balance
Guard, then `place_order`; a `{}` answer (rejection or gateway error, both
swallowed inside `BybitClient.place_order`) leaves the level untouched. -/
def placeStep (e : ExchangeView) (symbol : String) (g : List GridLevel)
    (l : GridLevel) : List GridLevel :=
  if check_available_balance e symbol l.side l.amount l.price then
    match e.placeOrderRes symbol l.side l.amount l.price with
    | some oid =>
        updateLevelInGrid g l.level l.side
          (fun x => { x with orderId := some oid, status := "active" })
    | none => g
  else g

/-- `GridManager.place_grid_orders` (called with `self.grids[symbol]` as
`grid`).  Pending levels are sorted by distance to the ticker price when the
ticker worked (Python's stable `list.sort`, realised by the stable
`List.insertionSort`).  The final `self.save_grid_to_db(symbol)` statement
passes one argument to a two-parameter method, so it raises `TypeError` on
every call; the surrounding `except` swallows it and the ledger is left
unchanged — hence the returned database equals the input database. -/
def place_grid_orders (e : ExchangeView) (symbol : String)
    (grid : List GridLevel) (db : GridsDb) : List GridLevel × GridsDb :=
  let pending := grid.filter (fun l => decide (l.status = "pending"))
  let sortedPending :=
    match e.tickerLast symbol with
    | some cp =>
        List.insertionSort
          (fun a b : GridLevel => |a.price - cp| ≤ |b.price - cp|) pending
    | none => pending
  (sortedPending.foldl (placeStep e symbol) grid, db)

/-- One iteration of the `for level in grid` loop of
`sync_orders_with_exchange`, acting on the current in-memory grid and ledger.
A `fetch_order` exception is the inner `except`: the level is left as it is.
On a status change the memory dict and the ledger row are updated; a "filled"
status additionally triggers `create_mirror_order`, with
`filled_price = float(order.get('price') or level['price'])` — Python
truthiness makes a missing or zero exchange price fall back to the level
price. -/
def syncStep (cfg : GridConfig) (e : ExchangeView) (symbol : String)
    (st : List GridLevel × GridsDb) (idx : Nat) : List GridLevel × GridsDb :=
  match st.1[idx]? with
  | none => st
  | some l =>
      match l.orderId with
      | none => st
      | some oid =>
          if l.status = "active" then
            match e.orderQuery oid symbol with
            | Except.error _ => st
            | Except.ok info =>
                if info.status = l.status then st
                else
                  let g1 := st.1.set idx { l with status := info.status }
                  let db1 := update_order_status_in_db st.2 symbol l.level l.side info.status
                  if info.status = "filled" then
                    let filledPrice :=
                      match info.price with
                      | some p => if p = 0 then l.price else p
                      | none => l.price
                    create_mirror_order cfg e symbol g1 db1
                      { l with status := info.status } filledPrice
                  else (g1, db1)
          else st

/-- The `for level in grid` loop: Python's list iterator re-checks the length
each step, so levels appended by `create_mirror_order` during the pass are
visited too.  `fuel` only bounds the recursion; a mirror append needs a
missing opposite-side slot and at most one append can happen per visited
index, while appended levels always find their opposite slot present, so
`2 * length` iterations always suffice. -/
def syncLoop (cfg : GridConfig) (e : ExchangeView) (symbol : String) :
    Nat → List GridLevel × GridsDb → Nat → List GridLevel × GridsDb
  | 0, st, _ => st
  | Nat.succ fuel, st, idx =>
      if idx < st.1.length then
        syncLoop cfg e symbol fuel (syncStep cfg e symbol st idx) (idx + 1)
      else st

/-- `GridManager.sync_orders_with_exchange` on the grid of one symbol. -/
def sync_orders_with_exchange (cfg : GridConfig) (e : ExchangeView)
    (symbol : String) (grid : List GridLevel) (db : GridsDb) :
    List GridLevel × GridsDb :=
  syncLoop cfg e symbol (2 * grid.length) (grid, db) 0

/-- The recreation of one stale level inside `check_and_recreate_orders`:
fresh price from the current ticker price and the level's own logarithmic
offset, status back to "pending", order reference cleared, ledger updated via
`update_order_in_db`. -/
def recreateStep (cfg : GridConfig) (symbol : String) (cp : ℚ)
    (st : List GridLevel × GridsDb) (l : GridLevel) : List GridLevel × GridsDb :=
  let d := levelDistance cfg l.level
  let newPrice := round6 (if l.side = Side.buy then cp * (1 - d) else cp * (1 + d))
  (updateLevelInGrid st.1 l.level l.side
     (fun x => { x with price := newPrice, status := "pending", orderId := none }),
   update_order_in_db st.2 symbol l.level l.side newPrice none "pending")

/-- `GridManager.check_and_recreate_orders`: collect the levels whose status
is in `["filled", "canceled", "pending"]` or that carry no order reference;
if any exist and the ticker works, re-price them all and call
`place_grid_orders`; a dead ticker leaves everything untouched. -/
def check_and_recreate_orders (cfg : GridConfig) (e : ExchangeView)
    (symbol : String) (grid : List GridLevel) (db : GridsDb) :
    List GridLevel × GridsDb :=
  let toRecreate := grid.filter (fun l =>
    decide (l.status = "filled" ∨ l.status = "canceled" ∨ l.status = "pending")
      || decide (l.orderId = none))
  if toRecreate.isEmpty then (grid, db)
  else
    match e.tickerLast symbol with
    | none => (grid, db)
    | some cp =>
        let st1 := toRecreate.foldl (recreateStep cfg symbol cp) (grid, db)
        place_grid_orders e symbol st1.1 st1.2

/-- Synchronise-then-recreate for one symbol, as run by the startup path and
the monitoring loop; both callers guard with `if symbol not in self.grids:
return`, modelled by the `lookupGrid` match. -/
def processSymbolState (cfg : GridConfig) (e : ExchangeView)
    (st : Grids × GridsDb) (symbol : String) : Grids × GridsDb :=
  match lookupGrid st.1 symbol with
  | none => st
  | some g =>
      let st1 := sync_orders_with_exchange cfg e symbol g st.2
      let st2 := check_and_recreate_orders cfg e symbol st1.1 st1.2
      (setGrid st.1 symbol st2.1, st2.2)

/-- One symbol of the monitoring loop body in `main`: the symbol is processed
only when its ticker answers (`if ticker and "last" in ticker`). -/
def processSymbolTick (cfg : GridConfig) (e : ExchangeView)
    (st : Grids × GridsDb) (symbol : String) : Grids × GridsDb :=
  match e.tickerLast symbol with
  | none => st
  | some _ => processSymbolState cfg e st symbol

/-- The startup portion of `main`, after `calculate_risk_parameters`:
`load_existing_grids`; when grids were found, sync and recreate each of them;
then — unconditionally, because the creation loop sits outside the `else`
branch — `create_grid` + `place_grid_orders` for every configured symbol
whose ticker answers.  `create_grid` stores the fresh list into `self.grids`
and persists it with the (correctly invoked) two-argument
`save_grid_to_db`. -/
def startupInit (cfg : GridConfig) (e : ExchangeView) (db0 : GridsDb) :
    Grids × GridsDb :=
  let loaded := load_existing_grids db0
  let st1 :=
    if loaded.1.isEmpty then loaded
    else (loaded.1.map Prod.fst).foldl (processSymbolState cfg e) loaded
  cfg.symbols.foldl (fun st s =>
    match e.tickerLast s with
    | none => st
    | some cp =>
        let g := create_grid cfg cp
        let db1 := save_grid_to_db st.2 s g
        let st2 := place_grid_orders e s g db1
        (setGrid st.1 s st2.1, st2.2)) st1

/-! Rounding lemmas. -/

lemma roundHalfToEven_ge_floor (x : ℚ) : ⌊x⌋ ≤ roundHalfToEven x := by
  simp only [roundHalfToEven]
  split_ifs <;> omega

lemma roundHalfToEven_le_floor_add_one (x : ℚ) : roundHalfToEven x ≤ ⌊x⌋ + 1 := by
  simp only [roundHalfToEven]
  split_ifs <;> omega

lemma roundHalfToEven_mono {x y : ℚ} (h : x ≤ y) :
    roundHalfToEven x ≤ roundHalfToEven y := by
  rcases lt_or_eq_of_le (Int.floor_le_floor h) with hf | hf
  · calc roundHalfToEven x ≤ ⌊x⌋ + 1 := roundHalfToEven_le_floor_add_one x
      _ ≤ ⌊y⌋ := by omega
      _ ≤ roundHalfToEven y := roundHalfToEven_ge_floor y
  · simp only [roundHalfToEven, hf]
    split_ifs <;> first | omega | linarith [h, Int.floor_le_floor h]

lemma round6_mono {x y : ℚ} (h : x ≤ y) : round6 x ≤ round6 y := by
  have h1 : x * 1000000 ≤ y * 1000000 := by linarith
  have h3 : ((roundHalfToEven (x * 1000000) : ℚ)) ≤
      (roundHalfToEven (y * 1000000) : ℚ) := by
    exact_mod_cast roundHalfToEven_mono h1
  have h4 : (0:ℚ) < 1000000 := by norm_num
  exact (div_le_div_iff_of_pos_right h4).mpr h3

/-! Positional description of `create_grid`. -/

lemma create_grid_buy_get (cfg : GridConfig) (p : ℚ) (i : Nat)
    (h : i < cfg.gridLevels) :
    (create_grid cfg p)[i]? = some (buyLevelAt cfg p i) := by
  simp [create_grid, List.getElem?_append, h, List.getElem?_range h]

lemma create_grid_sell_get (cfg : GridConfig) (p : ℚ) (i : Nat)
    (h : i < cfg.gridLevels) :
    (create_grid cfg p)[cfg.gridLevels + i]? = some (sellLevelAt cfg p i) := by
  have h2 : ¬ (cfg.gridLevels + i < cfg.gridLevels) := by omega
  simp [create_grid, List.getElem?_append, h2, List.getElem?_range h]

/-- Claim C5: for every `GridConfig` satisfying the invariant
(`levelCount > 0`, `spread > 0`, `levelNotional > 0`) and every
`referencePrice > 0`, `create_grid` produces exactly `2 * levelCount` levels,
all with status Pending and no order reference; buy level `i` has price
`round(referencePrice * (1 - spread * logMultiplier^i), 6)` (position `i`),
sell level `i` has price
`round(referencePrice * (1 + spread * logMultiplier^i), 6)` (position
`levelCount + i`), and every level's base amount equals
`levelNotional / referencePrice`; in particular `levelCount = 3`,
`spread = 0.01`, `logMultiplier = 2`, `referencePrice = 1000` yields buy
prices 990, 980, 960 and sell prices 1010, 1020, 1040. -/
theorem claim_C5_grid_calculator (cfg : GridConfig) (p : ℚ)
    (hn : 0 < cfg.gridLevels) (hs : 0 < cfg.gridSpread)
    (ha : 0 < cfg.levelAmount) (hp : 0 < p) :
    (create_grid cfg p).length = 2 * cfg.gridLevels
    ∧ (∀ l ∈ create_grid cfg p, l.status = "pending" ∧ l.orderId = none
        ∧ l.amount = cfg.levelAmount / p)
    ∧ (∀ i, i < cfg.gridLevels →
        (create_grid cfg p)[i]? = some (buyLevelAt cfg p i)
        ∧ (create_grid cfg p)[cfg.gridLevels + i]? = some (sellLevelAt cfg p i))
    ∧ (create_grid { gridLevels := 3, gridSpread := 0.01, levelAmount := 1,
                     logMultiplier := 2, symbols := ["S"] } 1000).map GridLevel.price
        = [990, 980, 960, 1010, 1020, 1040] := by
  refine ⟨?_, ?_, ?_, ?_⟩
  · simp [create_grid]
    omega
  · intro l hl
    simp only [create_grid, List.mem_append, List.mem_map, List.mem_range] at hl
    rcases hl with ⟨i, _, rfl⟩ | ⟨i, _, rfl⟩ <;>
      simp [buyLevelAt, sellLevelAt]
  · intro i hi
    exact ⟨create_grid_buy_get cfg p i hi, create_grid_sell_get cfg p i hi⟩
  · norm_num [create_grid, buyLevelAt, sellLevelAt, levelDistance, round6,
      roundHalfToEven, List.range_succ]

/-- Witness for C5 at the spec's end-to-end configuration. -/
theorem claim_C5_witness :
    (0 < 3 ∧ (0:ℚ) < 0.01 ∧ (0:ℚ) < 1 ∧ (0:ℚ) < 1000)
    ∧ (create_grid { gridLevels := 3, gridSpread := 0.01, levelAmount := 1,
                     logMultiplier := 2, symbols := ["S"] } 1000).length = 2 * 3 :=
  ⟨⟨by norm_num, by norm_num, by norm_num, by norm_num⟩,
   (claim_C5_grid_calculator
      { gridLevels := 3, gridSpread := 0.01, levelAmount := 1,
        logMultiplier := 2, symbols := ["S"] } 1000
      (by norm_num) (by norm_num) (by norm_num) (by norm_num)).1⟩

/-- Claim C6, counterexample: a valid `GridConfig` (`levelCount = 2 > 0`,
`spread = 0.00000001 > 0`, `levelNotional = 1 > 0`, code-default
`logMultiplier = 1.5 > 1`) with `referencePrice = 1` makes `create_grid`
round the buy prices of levels 0 and 1 to the same value 1, so the buy
prices are not strictly decreasing after rounding and two adjacent levels on
the same side share a price — the claim as stated is false. -/
theorem claim_C6_counterexample :
    (0 < 2 ∧ (0:ℚ) < 0.00000001 ∧ (0:ℚ) < 1 ∧ (1:ℚ) < 1.5 ∧ (0:ℚ) < 1)
    ∧ (create_grid { gridLevels := 2, gridSpread := 0.00000001, levelAmount := 1,
                     logMultiplier := 1.5, symbols := ["S"] } 1)[0]?.map GridLevel.price
        = some 1
    ∧ (create_grid { gridLevels := 2, gridSpread := 0.00000001, levelAmount := 1,
                     logMultiplier := 1.5, symbols := ["S"] } 1)[1]?.map GridLevel.price
        = some 1 := by
  refine ⟨by norm_num, ?_, ?_⟩ <;>
    norm_num [create_grid, buyLevelAt, sellLevelAt, levelDistance, round6,
      roundHalfToEven, List.range_succ]

/-- Claim C6 (amended): for every valid `GridConfig` with
`logMultiplier > 1` and every `referencePrice > 0`, the pre-rounding buy
prices are strictly decreasing and the pre-rounding sell prices strictly
increasing in `levelIndex`; after rounding to six decimals the buy prices
are nonincreasing and the sell prices nondecreasing (strictness, and hence
distinctness of adjacent prices, can be lost when the price step falls below
the rounding precision, as the counterexample shows). -/
theorem claim_C6_monotone (cfg : GridConfig) (p : ℚ)
    (hm : 1 < cfg.logMultiplier) (hs : 0 < cfg.gridSpread) (hp : 0 < p) :
    ∀ i j, i < j → j < cfg.gridLevels →
      (p * (1 - levelDistance cfg j) < p * (1 - levelDistance cfg i)
        ∧ p * (1 + levelDistance cfg i) < p * (1 + levelDistance cfg j))
      ∧ (∀ li lj, (create_grid cfg p)[i]? = some li →
          (create_grid cfg p)[j]? = some lj → lj.price ≤ li.price)
      ∧ (∀ si sj, (create_grid cfg p)[cfg.gridLevels + i]? = some si →
          (create_grid cfg p)[cfg.gridLevels + j]? = some sj →
          si.price ≤ sj.price) := by
  intro i j hij hj
  have hi : i < cfg.gridLevels := lt_trans hij hj
  have hd : levelDistance cfg i < levelDistance cfg j := by
    have := pow_lt_pow_right₀ hm hij
    exact mul_lt_mul_of_pos_left this hs
  have hbuy : p * (1 - levelDistance cfg j) < p * (1 - levelDistance cfg i) :=
    mul_lt_mul_of_pos_left (by linarith) hp
  have hsell : p * (1 + levelDistance cfg i) < p * (1 + levelDistance cfg j) :=
    mul_lt_mul_of_pos_left (by linarith) hp
  refine ⟨⟨hbuy, hsell⟩, ?_, ?_⟩
  · intro li lj hli hlj
    rw [create_grid_buy_get cfg p i hi] at hli
    rw [create_grid_buy_get cfg p j hj] at hlj
    cases hli
    cases hlj
    exact round6_mono (le_of_lt hbuy)
  · intro si sj hsi hsj
    rw [create_grid_sell_get cfg p i hi] at hsi
    rw [create_grid_sell_get cfg p j hj] at hsj
    cases hsi
    cases hsj
    exact round6_mono (le_of_lt hsell)

/-- Witness for the amended C6 at the spec's end-to-end configuration,
levels 0 and 1. -/
theorem claim_C6_witness :
    ((1:ℚ) < 2 ∧ (0:ℚ) < 0.01 ∧ (0:ℚ) < 1000 ∧ 0 < 1 ∧ 1 < 3)
    ∧ ((1000:ℚ) * (1 - levelDistance (⟨3, 0.01, 1, 2, ["S"]⟩ : GridConfig) 1)
        < 1000 * (1 - levelDistance (⟨3, 0.01, 1, 2, ["S"]⟩ : GridConfig) 0)
      ∧ (1000:ℚ) * (1 + levelDistance (⟨3, 0.01, 1, 2, ["S"]⟩ : GridConfig) 0)
        < 1000 * (1 + levelDistance (⟨3, 0.01, 1, 2, ["S"]⟩ : GridConfig) 1)) :=
  ⟨⟨by norm_num, by norm_num, by norm_num, by norm_num, by norm_num⟩,
   (claim_C6_monotone (⟨3, 0.01, 1, 2, ["S"]⟩ : GridConfig) 1000
      (by norm_num) (by norm_num) (by norm_num) 0 1 (by norm_num) (by norm_num)).1⟩

/-- Claim C7: the claim says every `logMultiplier < 1` must be rejected by
configuration validation with a `ConfigError` and no grid ever built with
such a multiplier.  The code never inspects `log_multiplier`: with
`LOG_MULTIPLIER = 0.5` (and otherwise valid environment: keys set,
`SYMBOLS = "AAA/USDT"`, `RISK_LEVEL = 3`, deposit 1000)
`GridConfig.__post_init__` succeeds, `calculate_risk_parameters` happily
derives the grid parameters with multiplier 0.5, and `create_grid` builds a
full 24-level grid — the code contradicts the specified validation. -/
theorem claim_C7_no_multiplier_validation :
    ((0.5:ℚ) < 1)
    ∧ postInitValidate ⟨some "k", some "s", some "AAA/USDT", 3, 0.5⟩
        = Except.ok ["AAA/USDT"]
    ∧ calculate_risk_parameters ⟨some "k", some "s", some "AAA/USDT", 3, 0.5⟩
        ["AAA/USDT"] 1000
        = some ⟨12, 0.001, 200/3, 0.5, ["AAA/USDT"]⟩
    ∧ (create_grid (⟨12, 0.001, 200/3, 0.5, ["AAA/USDT"]⟩ : GridConfig) 100).length
        = 2 * 12 := by
  refine ⟨by norm_num, by decide, ?_, ?_⟩
  · simp only [calculate_risk_parameters, RISK_LEVELS]
    norm_num
  · simp [create_grid]

/-! Balance Guard lemmas. -/

lemma lockedBuyValue_nonneg_aux (os : List OpenOrder)
    (h : ∀ o ∈ os, 0 ≤ o.amount ∧ 0 ≤ o.price) :
    ∀ acc : ℚ, 0 ≤ acc →
      0 ≤ os.foldl (fun acc o => if o.side = Side.buy then acc + o.amount * o.price else acc) acc := by
  induction os with
  | nil => intro acc hacc; simpa using hacc
  | cons o os ih =>
      intro acc hacc
      have ho := h o (List.mem_cons_self o os)
      have hrest : ∀ o' ∈ os, 0 ≤ o'.amount ∧ 0 ≤ o'.price :=
        fun o' ho' => h o' (List.mem_cons_of_mem o ho')
      simp only [List.foldl_cons]
      by_cases hside : o.side = Side.buy
      · simp only [hside, if_pos rfl]
        exact ih hrest (acc + o.amount * o.price)
          (by nlinarith [ho.1, ho.2])
      · simp only [if_neg hside]
        exact ih hrest acc hacc

lemma lockedBuyValue_nonneg (os : List OpenOrder)
    (h : ∀ o ∈ os, 0 ≤ o.amount ∧ 0 ≤ o.price) : 0 ≤ lockedBuyValue os :=
  lockedBuyValue_nonneg_aux os h 0 le_rfl

lemma lockedSellAmount_nonneg_aux (os : List OpenOrder)
    (h : ∀ o ∈ os, 0 ≤ o.amount) :
    ∀ acc : ℚ, 0 ≤ acc →
      0 ≤ os.foldl (fun acc o => if o.side = Side.sell then acc + o.amount else acc) acc := by
  induction os with
  | nil => intro acc hacc; simpa using hacc
  | cons o os ih =>
      intro acc hacc
      have ho := h o (List.mem_cons_self o os)
      have hrest : ∀ o' ∈ os, 0 ≤ o'.amount :=
        fun o' ho' => h o' (List.mem_cons_of_mem o ho')
      simp only [List.foldl_cons]
      by_cases hside : o.side = Side.sell
      · simp only [hside, if_pos rfl]
        exact ih hrest (acc + o.amount) (by linarith)
      · simp only [if_neg hside]
        exact ih hrest acc hacc

lemma lockedSellAmount_nonneg (os : List OpenOrder)
    (h : ∀ o ∈ os, 0 ≤ o.amount) : 0 ≤ lockedSellAmount os :=
  lockedSellAmount_nonneg_aux os h 0 le_rfl

/-- Claim C3: for a Buy candidate of quantity `q` at price `p` the Balance
Guard returns Sufficient iff the free quote balance minus the `qty * price`
reservation of every open Buy order across all symbols is `≥ q * p`
(boundary inclusive), and for a Sell candidate iff the free base balance
minus the `qty` reservation of the open Sell orders on the symbol is `≥ q`.
The hypotheses say the gateway queries succeed and `free` is present;
`check_available_balance` mutates nothing (it is a plain function of the
oracle) and reads the open-orders oracle on every call. -/
theorem claim_C3_balance_guard (e : ExchangeView) (symbol : String)
    (q p b c : ℚ) (bf cf : BalanceFields) (os os' : List OpenOrder)
    (hb : e.usdtBalance = Except.ok (some bf)) (hbf : bf.free = some b)
    (ho : e.allOpenOrders = Except.ok os)
    (hc : e.baseBalance (baseCurrency symbol) = Except.ok (some cf))
    (hcf : cf.free = some c)
    (ho' : e.openOrdersFor symbol = Except.ok os') :
    (check_available_balance e symbol Side.buy q p = true
      ↔ q * p ≤ b - lockedBuyValue os)
    ∧ (check_available_balance e symbol Side.sell q p = true
      ↔ q ≤ c - lockedSellAmount os') := by
  constructor
  · simp [check_available_balance, get_balance, get_locked_usdt_in_orders,
      hb, ho, pickBalance, hbf]
  · simp [check_available_balance, get_base_balance, get_locked_base_in_orders,
      hc, ho', pickBalance, hcf]

/-- Witness for C3: a gateway with 10 free USDT, no open orders, and a buy
candidate needing exactly `2 * 5 = 10` — the boundary case, Sufficient. -/
theorem claim_C3_witness :
    ((⟨fun _ => none, Except.ok (some ⟨some 10, none, none⟩),
       fun _ => Except.ok (some ⟨some 7, none, none⟩), Except.ok [],
       fun _ => Except.ok [], fun _ _ _ _ => none,
       fun _ _ => Except.error "x"⟩ : ExchangeView).usdtBalance
      = Except.ok (some ⟨some 10, none, none⟩))
    ∧ (check_available_balance
        (⟨fun _ => none, Except.ok (some ⟨some 10, none, none⟩),
          fun _ => Except.ok (some ⟨some 7, none, none⟩), Except.ok [],
          fun _ => Except.ok [], fun _ _ _ _ => none,
          fun _ _ => Except.error "x"⟩ : ExchangeView) "AAA/USDT" Side.buy 2 5 = true
      ↔ (2:ℚ) * 5 ≤ 10 - lockedBuyValue [])
    ∧ check_available_balance
        (⟨fun _ => none, Except.ok (some ⟨some 10, none, none⟩),
          fun _ => Except.ok (some ⟨some 7, none, none⟩), Except.ok [],
          fun _ => Except.ok [], fun _ _ _ _ => none,
          fun _ _ => Except.error "x"⟩ : ExchangeView) "AAA/USDT" Side.buy 2 5 = true :=
  ⟨rfl,
   (claim_C3_balance_guard _ "AAA/USDT" 2 5 10 7 ⟨some 10, none, none⟩
      ⟨some 7, none, none⟩ [] [] rfl rfl rfl rfl rfl rfl).1,
   ((claim_C3_balance_guard _ "AAA/USDT" 2 5 10 7 ⟨some 10, none, none⟩
      ⟨some 7, none, none⟩ [] [] rfl rfl rfl rfl rfl rfl).1).mpr
     (by norm_num [lockedBuyValue])⟩

/-- Claim C10: the balance check is total over gateway failures: it always
returns a boolean and never propagates an exception (in the embedding it is
a `Bool`-valued function of the oracle; every fallible call it makes
consumes its own `Except`).  When the balance query fails the free balance
is taken as 0.0, so any positive requirement yields `false`; when only the
open-orders query fails the reservation is taken as 0.0 and the verdict is
decided by the gross free balance alone. -/
theorem claim_C10_balance_check_total (e : ExchangeView) (symbol : String)
    (q p : ℚ) :
    (check_available_balance e symbol Side.buy q p = true
      ∨ check_available_balance e symbol Side.buy q p = false)
    ∧ (∀ m, e.usdtBalance = Except.error m → 0 < q * p →
        (∀ os, e.allOpenOrders = Except.ok os →
          ∀ o ∈ os, 0 ≤ o.amount ∧ 0 ≤ o.price) →
        check_available_balance e symbol Side.buy q p = false)
    ∧ (∀ m bf b, e.usdtBalance = Except.ok (some bf) → bf.free = some b →
        e.allOpenOrders = Except.error m →
        (check_available_balance e symbol Side.buy q p = true ↔ q * p ≤ b))
    ∧ (∀ m, e.baseBalance (baseCurrency symbol) = Except.error m → 0 < q →
        (∀ os, e.openOrdersFor symbol = Except.ok os → ∀ o ∈ os, 0 ≤ o.amount) →
        check_available_balance e symbol Side.sell q p = false)
    ∧ (∀ m cf c, e.baseBalance (baseCurrency symbol) = Except.ok (some cf) →
        cf.free = some c → e.openOrdersFor symbol = Except.error m →
        (check_available_balance e symbol Side.sell q p = true ↔ q ≤ c)) := by
  refine ⟨?_, ?_, ?_, ?_, ?_⟩
  · rcases Bool.eq_false_or_eq_true (check_available_balance e symbol Side.buy q p)
      with hh | hh
    · exact Or.inl hh
    · exact Or.inr hh
  · intro m hm hqp hos
    have hlocked : 0 ≤ get_locked_usdt_in_orders e := by
      cases hoo : e.allOpenOrders with
      | error _ => simp [get_locked_usdt_in_orders, hoo]
      | ok os => simpa [get_locked_usdt_in_orders, hoo] using
          lockedBuyValue_nonneg os (hos os hoo)
    simp only [check_available_balance, get_balance, hm]
    simp only [decide_eq_false_iff_not]
    intro hcontra
    linarith
  · intro m bf b hb hbf hoo
    simp [check_available_balance, get_balance, get_locked_usdt_in_orders,
      hb, hbf, pickBalance, hoo]
  · intro m hm hq hos
    have hlocked : 0 ≤ get_locked_base_in_orders e symbol := by
      cases hoo : e.openOrdersFor symbol with
      | error _ => simp [get_locked_base_in_orders, hoo]
      | ok os => simpa [get_locked_base_in_orders, hoo] using
          lockedSellAmount_nonneg os (hos os hoo)
    simp only [check_available_balance, get_base_balance, hm]
    simp only [decide_eq_false_iff_not]
    intro hcontra
    linarith
  · intro m cf c hc hcf hoo
    simp [check_available_balance, get_base_balance, get_locked_base_in_orders,
      hc, hcf, pickBalance, hoo]

/-- Witness for C10: dead balance query forces `false` for a positive buy
requirement; a live balance with a dead open-orders query decides on the
gross free balance alone. -/
theorem claim_C10_witness :
    ((⟨fun _ => none, Except.error "down", fun _ => Except.error "down",
       Except.ok [], fun _ => Except.ok [], fun _ _ _ _ => none,
       fun _ _ => Except.error "x"⟩ : ExchangeView).usdtBalance
        = Except.error "down"
      ∧ (0:ℚ) < 2 * 5)
    ∧ check_available_balance
        (⟨fun _ => none, Except.error "down", fun _ => Except.error "down",
          Except.ok [], fun _ => Except.ok [], fun _ _ _ _ => none,
          fun _ _ => Except.error "x"⟩ : ExchangeView) "AAA/USDT" Side.buy 2 5
        = false
    ∧ (check_available_balance
        (⟨fun _ => none, Except.ok (some ⟨some 10, none, none⟩),
          fun _ => Except.error "down", Except.error "down",
          fun _ => Except.error "down", fun _ _ _ _ => none,
          fun _ _ => Except.error "x"⟩ : ExchangeView) "AAA/USDT" Side.buy 2 5 = true
      ↔ (2:ℚ) * 5 ≤ 10) :=
  ⟨⟨rfl, by norm_num⟩,
   (claim_C10_balance_check_total _ "AAA/USDT" 2 5).2.1 "down" rfl (by norm_num)
     (by intro os h o ho; cases h; cases ho),
   (claim_C10_balance_check_total _ "AAA/USDT" 2 5).2.2.1 "down"
     ⟨some 10, none, none⟩ 10 rfl rfl rfl⟩

/-- First level with a given `(level, side)` identity in a grid list. -/
def findLevel (g : List GridLevel) (lvl : Nat) (sd : Side) : Option GridLevel :=
  g.find? (fun x => decide (x.level = lvl ∧ x.side = sd))

lemma findLevel_replaceFirstOrAppend (g : List GridLevel) (lvl : Nat) (sd : Side)
    (nl : GridLevel) (h1 : nl.level = lvl) (h2 : nl.side = sd) :
    findLevel (replaceFirstOrAppend g lvl sd nl) lvl sd = some nl := by
  induction g with
  | nil => simp [replaceFirstOrAppend, findLevel, List.find?, h1, h2]
  | cons l ls ih =>
      by_cases hl : l.level = lvl ∧ l.side = sd
      · simp [replaceFirstOrAppend, hl, findLevel, List.find?, h1, h2]
      · simp only [replaceFirstOrAppend, if_neg hl]
        simpa [findLevel, List.find?, hl] using ih

/-- Claim C4, counterexample: with `spread = 0.0000001`,
`logMultiplier = 1.5`, a filled Buy at level 0 with `filledPrice = 1` and a
willing gateway, the mirror Sell is placed at the rounded price 1, whereas
the claim's formula `filledPrice * (1 + spread * logMultiplier^levelIndex)`
gives `1.0000001 ≠ 1`: the code rounds the mirror price to six decimals, so
the claim's unrounded price equation is false. -/
theorem claim_C4_counterexample :
    findLevel (create_mirror_order (⟨1, 0.0000001, 1, 1.5, ["S"]⟩ : GridConfig)
        (⟨fun _ => some 1, Except.ok (some ⟨some 1000, none, none⟩),
          fun _ => Except.ok (some ⟨some 1000, none, none⟩), Except.ok [],
          fun _ => Except.ok [], fun _ _ _ _ => some "m1",
          fun _ _ => Except.error "x"⟩ : ExchangeView) "S" []
        (⟨[], 1⟩ : GridsDb) (⟨0, Side.buy, 1, 1, none, "filled"⟩ : GridLevel) 1).1
      0 Side.sell
      = some ⟨0, Side.sell, 1, 1, some "m1", "active"⟩
    ∧ (1:ℚ) * (1 + levelDistance (⟨1, 0.0000001, 1, 1.5, ["S"]⟩ : GridConfig) 0) ≠ 1 := by
  constructor
  · norm_num [create_mirror_order, mirrorSide, levelDistance,
      check_available_balance, get_base_balance, get_locked_base_in_orders,
      lockedSellAmount, pickBalance, round6, roundHalfToEven, findLevel,
      replaceFirstOrAppend, List.find?]
  · norm_num [levelDistance]

/-- Claim C4 (amended): on a level's observed fill the mirror generator
computes the opposite side, sets the mirror price to
`round(filledPrice * (1 + spread * logMultiplier^levelIndex), 6)` when the
mirror side is Sell and `round(filledPrice * (1 - ...), 6)` when it is Buy,
keeps the base amount unchanged, and on successful placement stores the
mirror slot in memory and rewrites the ledger row of
`(symbol, levelIndex, oppositeSide)` to status Active with the new price and
order reference, leaving rows of other identities in place; in particular a
filled Buy at level 2, price 100, spread 0.001, multiplier 1.5 yields a Sell
price of exactly 100.225 (here the rounding is the identity). -/
theorem claim_C4_mirror_generator (cfg : GridConfig) (e : ExchangeView)
    (symbol : String) (grid : List GridLevel) (db : GridsDb) (fl : GridLevel)
    (fp pr : ℚ) (oid : String)
    (hpr : pr = round6 (if mirrorSide fl.side = Side.sell
        then fp * (1 + levelDistance cfg fl.level)
        else fp * (1 - levelDistance cfg fl.level)))
    (hb : check_available_balance e symbol (mirrorSide fl.side) fl.amount pr = true)
    (ho : e.placeOrderRes symbol (mirrorSide fl.side) fl.amount pr = some oid) :
    (fl.side = Side.buy → mirrorSide fl.side = Side.sell)
    ∧ (fl.side = Side.sell → mirrorSide fl.side = Side.buy)
    ∧ findLevel (create_mirror_order cfg e symbol grid db fl fp).1
        fl.level (mirrorSide fl.side)
        = some ⟨fl.level, mirrorSide fl.side, fl.amount, pr, some oid, "active"⟩
    ∧ (∀ r ∈ (create_mirror_order cfg e symbol grid db fl fp).2.rows,
        rowKey r = (symbol, fl.level, mirrorSide fl.side) →
        r.status = "active" ∧ r.price = pr ∧ r.orderId = some oid)
    ∧ (∀ r ∈ db.rows, rowKey r ≠ (symbol, fl.level, mirrorSide fl.side) →
        r ∈ (create_mirror_order cfg e symbol grid db fl fp).2.rows)
    ∧ round6 (100 * (1 + levelDistance (⟨3, 0.001, 1, 1.5, ["S"]⟩ : GridConfig) 2))
        = 100.225 := by
  have hrun : create_mirror_order cfg e symbol grid db fl fp
      = (replaceFirstOrAppend grid fl.level (mirrorSide fl.side)
          ⟨fl.level, mirrorSide fl.side, fl.amount, pr, some oid, "active"⟩,
         update_order_in_db db symbol fl.level (mirrorSide fl.side) pr
           (some oid) "active") := by
    simp only [create_mirror_order, ← hpr, hb, ho]
    simp
  refine ⟨?_, ?_, ?_, ?_, ?_, ?_⟩
  · intro h; rw [h]; rfl
  · intro h; rw [h]; rfl
  · rw [hrun]
    exact findLevel_replaceFirstOrAppend grid fl.level (mirrorSide fl.side) _ rfl rfl
  · rw [hrun]
    intro r hr hk
    simp only [update_order_in_db, List.mem_map] at hr
    obtain ⟨r0, hr0, rfl⟩ := hr
    by_cases h0 : rowKey r0 = (symbol, fl.level, mirrorSide fl.side)
    · simp [h0]
    · exfalso
      apply h0
      simp [h0] at hk
  · rw [hrun]
    intro r hr hk
    simp only [update_order_in_db, List.mem_map]
    refine ⟨r, hr, ?_⟩
    simp [hk]
  · norm_num [levelDistance, round6, roundHalfToEven]

/-- Witness for the amended C4 at the spec's mirror example: filled Buy at
level 2, `filledPrice = 100`, spread 0.001, multiplier 1.5; the placed Sell
carries price 100.225. -/
theorem claim_C4_witness :
    ((⟨fun _ => some 100, Except.ok (some ⟨some 1000, none, none⟩),
       fun _ => Except.ok (some ⟨some 1000, none, none⟩), Except.ok [],
       fun _ => Except.ok [], fun _ _ _ _ => some "m1",
       fun _ _ => Except.error "x"⟩ : ExchangeView).placeOrderRes "S" Side.sell 1
        (round6 (100 * (1 + levelDistance (⟨3, 0.001, 1, 1.5, ["S"]⟩ : GridConfig) 2)))
      = some "m1")
    ∧ findLevel (create_mirror_order (⟨3, 0.001, 1, 1.5, ["S"]⟩ : GridConfig)
        (⟨fun _ => some 100, Except.ok (some ⟨some 1000, none, none⟩),
          fun _ => Except.ok (some ⟨some 1000, none, none⟩), Except.ok [],
          fun _ => Except.ok [], fun _ _ _ _ => some "m1",
          fun _ _ => Except.error "x"⟩ : ExchangeView) "S" []
        (⟨[], 1⟩ : GridsDb) (⟨2, Side.buy, 1, 100, none, "filled"⟩ : GridLevel) 100).1
        2 Side.sell
      = some ⟨2, Side.sell, 1,
          round6 (100 * (1 + levelDistance (⟨3, 0.001, 1, 1.5, ["S"]⟩ : GridConfig) 2)),
          some "m1", "active"⟩
    ∧ round6 (100 * (1 + levelDistance (⟨3, 0.001, 1, 1.5, ["S"]⟩ : GridConfig) 2))
      = 100.225 :=
  ⟨rfl,
   (claim_C4_mirror_generator (⟨3, 0.001, 1, 1.5, ["S"]⟩ : GridConfig) _ "S" []
      (⟨[], 1⟩ : GridsDb) (⟨2, Side.buy, 1, 100, none, "filled"⟩ : GridLevel)
      100 _ "m1" rfl
      (by norm_num [check_available_balance, get_base_balance,
        get_locked_base_in_orders, lockedSellAmount, pickBalance, mirrorSide,
        levelDistance, round6, roundHalfToEven])
      rfl).2.2.1,
   (claim_C4_mirror_generator (⟨3, 0.001, 1, 1.5, ["S"]⟩ : GridConfig)
      (⟨fun _ => some 100, Except.ok (some ⟨some 1000, none, none⟩),
        fun _ => Except.ok (some ⟨some 1000, none, none⟩), Except.ok [],
        fun _ => Except.ok [], fun _ _ _ _ => some "m1",
        fun _ _ => Except.error "x"⟩ : ExchangeView) "S" []
      (⟨[], 1⟩ : GridsDb) (⟨2, Side.buy, 1, 100, none, "filled"⟩ : GridLevel)
      100 _ "m1" rfl
      (by norm_num [check_available_balance, get_base_balance,
        get_locked_base_in_orders, lockedSellAmount, pickBalance, mirrorSide,
        levelDistance, round6, roundHalfToEven])
      rfl).2.2.2.2.2⟩

/-- Claim C2: the claim says every in-memory transition is synchronously
written to the ledger and an unpersisted transition is not kept as
committed.  The code violates this: `place_grid_orders` performs the
Pending-to-Active transition in memory and then calls
`self.save_grid_to_db(symbol)` — one argument for a two-parameter method —
which raises `TypeError` on every call and is swallowed by the surrounding
`except`.  Concretely: one pending buy level, a rich gateway that accepts
the order; afterwards the in-memory level is "active" with order id "X1"
while the ledger row still reads "pending" with no order reference, and the
returned database equals the input database. -/
theorem claim_C2_transition_not_persisted :
    (place_grid_orders
        (⟨fun _ => some 10, Except.ok (some ⟨some 1000, none, none⟩),
          fun _ => Except.ok (some ⟨some 1000, none, none⟩), Except.ok [],
          fun _ => Except.ok [], fun _ _ _ _ => some "X1",
          fun _ _ => Except.error "x"⟩ : ExchangeView) "S"
        [⟨0, Side.buy, 1, 10, none, "pending"⟩]
        (⟨[⟨1, "S", 0, Side.buy, 1, 10, none, "pending"⟩], 2⟩ : GridsDb)).1
      = [⟨0, Side.buy, 1, 10, some "X1", "active"⟩]
    ∧ (place_grid_orders
        (⟨fun _ => some 10, Except.ok (some ⟨some 1000, none, none⟩),
          fun _ => Except.ok (some ⟨some 1000, none, none⟩), Except.ok [],
          fun _ => Except.ok [], fun _ _ _ _ => some "X1",
          fun _ _ => Except.error "x"⟩ : ExchangeView) "S"
        [⟨0, Side.buy, 1, 10, none, "pending"⟩]
        (⟨[⟨1, "S", 0, Side.buy, 1, 10, none, "pending"⟩], 2⟩ : GridsDb)).2
      = (⟨[⟨1, "S", 0, Side.buy, 1, 10, none, "pending"⟩], 2⟩ : GridsDb) := by
  constructor
  · norm_num [place_grid_orders, placeStep, updateLevelInGrid,
      check_available_balance, get_balance, get_locked_usdt_in_orders,
      lockedBuyValue, pickBalance, List.insertionSort, List.orderedInsert]
  · rfl

/-- Claim C1: the claim says startup restores exactly the pre-crash state of
every persisted level (statuses, prices, orderRefs unchanged by startup
itself) and only reconciliation reclassifies levels whose exchange order has
changed.  The code violates this: in `main` the grid-creation loop sits
outside the `else` of `if has_existing_grids`, so after loading (and
correctly syncing) the persisted grids it unconditionally rebuilds every
configured symbol's grid, resetting each persisted level to "pending" with
no order reference and a recomputed price.  Concretely: the ledger holds one
Active buy level with order "o1" at price 99 and amount 2; the exchange
still reports "o1" active; the ticker says 100; placements fail (dead
balance query), so nothing re-activates the slot.  After `startupInit` the
ledger row has status "pending", no order reference and amount 1 — the
pre-crash state was destroyed by startup itself, not by reconciliation. -/
theorem claim_C1_startup_destroys_state :
    (startupInit (⟨1, 0.01, 100, 1.5, ["S"]⟩ : GridConfig)
        (⟨fun _ => some 100, Except.error "bal", fun _ => Except.error "bal",
          Except.ok [], fun _ => Except.ok [], fun _ _ _ _ => none,
          fun _ _ => Except.ok ⟨"active", some 99⟩⟩ : ExchangeView)
        (⟨[⟨1, "S", 0, Side.buy, 2, 99, some "o1", "active"⟩], 2⟩ : GridsDb)).2.rows
      = [⟨1, "S", 0, Side.buy, 1, 99, none, "pending"⟩,
         ⟨2, "S", 0, Side.sell, 1, 101, none, "pending"⟩]
    ∧ (⟨[⟨1, "S", 0, Side.buy, 2, 99, some "o1", "active"⟩], 2⟩ : GridsDb).rows
      = [⟨1, "S", 0, Side.buy, 2, 99, some "o1", "active"⟩]
    ∧ (⟨fun _ => some 100, Except.error "bal", fun _ => Except.error "bal",
          Except.ok [], fun _ => Except.ok [], fun _ _ _ _ => none,
          fun _ _ => Except.ok ⟨"active", some 99⟩⟩ : ExchangeView).orderQuery "o1" "S"
      = Except.ok ⟨"active", some 99⟩ := by
  refine ⟨?_, rfl, rfl⟩
  have h1 : load_existing_grids
      (⟨[⟨1, "S", 0, Side.buy, 2, 99, some "o1", "active"⟩], 2⟩ : GridsDb)
      = ([("S", [⟨0, Side.buy, 2, 99, some "o1", "active"⟩])],
         (⟨[⟨1, "S", 0, Side.buy, 2, 99, some "o1", "active"⟩], 2⟩ : GridsDb)) := by
    simp [load_existing_grids, keepLatest, isLatestRow, distinctSymbols,
      rowsForSymbol, toLevel, rowKey, List.insertionSort, List.orderedInsert]
  have h2 : sync_orders_with_exchange (⟨1, 0.01, 100, 1.5, ["S"]⟩ : GridConfig)
      (⟨fun _ => some 100, Except.error "bal", fun _ => Except.error "bal",
        Except.ok [], fun _ => Except.ok [], fun _ _ _ _ => none,
        fun _ _ => Except.ok ⟨"active", some 99⟩⟩ : ExchangeView) "S"
      [⟨0, Side.buy, 2, 99, some "o1", "active"⟩]
      (⟨[⟨1, "S", 0, Side.buy, 2, 99, some "o1", "active"⟩], 2⟩ : GridsDb)
      = ([⟨0, Side.buy, 2, 99, some "o1", "active"⟩],
         (⟨[⟨1, "S", 0, Side.buy, 2, 99, some "o1", "active"⟩], 2⟩ : GridsDb)) := by
    simp [sync_orders_with_exchange, syncLoop, syncStep]
  have h4 : check_and_recreate_orders (⟨1, 0.01, 100, 1.5, ["S"]⟩ : GridConfig)
      (⟨fun _ => some 100, Except.error "bal", fun _ => Except.error "bal",
        Except.ok [], fun _ => Except.ok [], fun _ _ _ _ => none,
        fun _ _ => Except.ok ⟨"active", some 99⟩⟩ : ExchangeView) "S"
      [⟨0, Side.buy, 2, 99, some "o1", "active"⟩]
      (⟨[⟨1, "S", 0, Side.buy, 2, 99, some "o1", "active"⟩], 2⟩ : GridsDb)
      = ([⟨0, Side.buy, 2, 99, some "o1", "active"⟩],
         (⟨[⟨1, "S", 0, Side.buy, 2, 99, some "o1", "active"⟩], 2⟩ : GridsDb)) := by
    simp [check_and_recreate_orders]
  have h5 : create_grid (⟨1, 0.01, 100, 1.5, ["S"]⟩ : GridConfig) 100
      = [⟨0, Side.buy, 1, 99, none, "pending"⟩,
         ⟨0, Side.sell, 1, 101, none, "pending"⟩] := by
    norm_num [create_grid, buyLevelAt, sellLevelAt, levelDistance, round6,
      roundHalfToEven, List.range_succ]
  have h6 : save_grid_to_db
      (⟨[⟨1, "S", 0, Side.buy, 2, 99, some "o1", "active"⟩], 2⟩ : GridsDb) "S"
      [⟨0, Side.buy, 1, 99, none, "pending"⟩,
       ⟨0, Side.sell, 1, 101, none, "pending"⟩]
      = (⟨[⟨1, "S", 0, Side.buy, 1, 99, none, "pending"⟩,
           ⟨2, "S", 0, Side.sell, 1, 101, none, "pending"⟩], 3⟩ : GridsDb) := by
    norm_num [save_grid_to_db, upsertPending, keysDistinct, rowKey,
      List.pairwise_cons]
    all_goals decide
  have h7 : place_grid_orders
      (⟨fun _ => some 100, Except.error "bal", fun _ => Except.error "bal",
        Except.ok [], fun _ => Except.ok [], fun _ _ _ _ => none,
        fun _ _ => Except.ok ⟨"active", some 99⟩⟩ : ExchangeView) "S"
      [⟨0, Side.buy, 1, 99, none, "pending"⟩,
       ⟨0, Side.sell, 1, 101, none, "pending"⟩]
      (⟨[⟨1, "S", 0, Side.buy, 1, 99, none, "pending"⟩,
         ⟨2, "S", 0, Side.sell, 1, 101, none, "pending"⟩], 3⟩ : GridsDb)
      = ([⟨0, Side.buy, 1, 99, none, "pending"⟩,
          ⟨0, Side.sell, 1, 101, none, "pending"⟩],
         (⟨[⟨1, "S", 0, Side.buy, 1, 99, none, "pending"⟩,
            ⟨2, "S", 0, Side.sell, 1, 101, none, "pending"⟩], 3⟩ : GridsDb)) := by
    norm_num [place_grid_orders, placeStep, check_available_balance,
      get_balance, get_base_balance, get_locked_usdt_in_orders,
      get_locked_base_in_orders, lockedBuyValue, lockedSellAmount,
      pickBalance, List.insertionSort, List.orderedInsert, updateLevelInGrid]
  simp [startupInit, h1, processSymbolState, lookupGrid, h2, h4, setGrid,
    h5, h6, h7]

/-! Frame lemmas: processing one symbol never touches another symbol's
ledger rows or in-memory grid. -/

/-- The ledger rows of every symbol other than `symbol`. -/
def otherSymbolRows (db : GridsDb) (symbol : String) : List Row :=
  db.rows.filter (fun r => !(decide (r.symbol = symbol)))

lemma filter_map_other (symbol : String) (rows : List Row) (f : Row → Row)
    (hid : ∀ r, ¬ r.symbol = symbol → f r = r)
    (hsym : ∀ r, (f r).symbol = r.symbol) :
    (rows.map f).filter (fun r => !(decide (r.symbol = symbol)))
      = rows.filter (fun r => !(decide (r.symbol = symbol))) := by
  induction rows with
  | nil => rfl
  | cons r rs ih =>
      by_cases hr : r.symbol = symbol
      · have hfr : (f r).symbol = symbol := by rw [hsym]; exact hr
        rw [List.map_cons, List.filter_cons_of_neg (by simp [hfr]),
          List.filter_cons_of_neg (by simp [hr])]
        exact ih
      · rw [List.map_cons, hid r hr, List.filter_cons_of_pos (by simp [hr]),
          List.filter_cons_of_pos (by simp [hr]), ih]

lemma otherSymbolRows_update_status (db : GridsDb) (symbol : String)
    (lvl : Nat) (sd : Side) (status : String) :
    otherSymbolRows (update_order_status_in_db db symbol lvl sd status) symbol
      = otherSymbolRows db symbol := by
  apply filter_map_other
  · intro r hr
    rw [if_neg]
    intro hk
    exact hr (congrArg Prod.fst hk)
  · intro r
    by_cases hk : rowKey r = (symbol, lvl, sd) <;> simp [hk]

lemma otherSymbolRows_update_order (db : GridsDb) (symbol : String)
    (lvl : Nat) (sd : Side) (price : ℚ) (oid : Option String) (status : String) :
    otherSymbolRows (update_order_in_db db symbol lvl sd price oid status) symbol
      = otherSymbolRows db symbol := by
  apply filter_map_other
  · intro r hr
    rw [if_neg]
    intro hk
    exact hr (congrArg Prod.fst hk)
  · intro r
    by_cases hk : rowKey r = (symbol, lvl, sd) <;> simp [hk]

lemma otherSymbolRows_mirror (cfg : GridConfig) (e : ExchangeView)
    (symbol : String) (grid : List GridLevel) (db : GridsDb)
    (fl : GridLevel) (fp : ℚ) :
    otherSymbolRows (create_mirror_order cfg e symbol grid db fl fp).2 symbol
      = otherSymbolRows db symbol := by
  simp only [create_mirror_order]
  split
  · split
    · rfl
    · split
      · rfl
      · exact otherSymbolRows_update_order db symbol fl.level (mirrorSide fl.side) _ _ _
  · split
    · rfl
    · split
      · rfl
      · exact otherSymbolRows_update_order db symbol fl.level (mirrorSide fl.side) _ _ _

lemma otherSymbolRows_syncStep (cfg : GridConfig) (e : ExchangeView)
    (symbol : String) (st : List GridLevel × GridsDb) (idx : Nat) :
    otherSymbolRows (syncStep cfg e symbol st idx).2 symbol
      = otherSymbolRows st.2 symbol := by
  simp only [syncStep]
  split
  · rfl
  · split
    · rfl
    · split
      · split
        · rfl
        · split
          · rfl
          · split
            · rw [otherSymbolRows_mirror]
              exact otherSymbolRows_update_status st.2 symbol _ _ _
            · exact otherSymbolRows_update_status st.2 symbol _ _ _
      · rfl

lemma otherSymbolRows_syncLoop (cfg : GridConfig) (e : ExchangeView)
    (symbol : String) (fuel : Nat) :
    ∀ (st : List GridLevel × GridsDb) (idx : Nat),
      otherSymbolRows (syncLoop cfg e symbol fuel st idx).2 symbol
        = otherSymbolRows st.2 symbol := by
  induction fuel with
  | zero => intro st idx; rfl
  | succ fuel ih =>
      intro st idx
      simp only [syncLoop]
      split
      · rw [ih, otherSymbolRows_syncStep]
      · rfl

lemma otherSymbolRows_recreateFold (cfg : GridConfig) (symbol : String)
    (cp : ℚ) (ls : List GridLevel) :
    ∀ (st : List GridLevel × GridsDb),
      otherSymbolRows (ls.foldl (recreateStep cfg symbol cp) st).2 symbol
        = otherSymbolRows st.2 symbol := by
  induction ls with
  | nil => intro st; rfl
  | cons l ls ih =>
      intro st
      simp only [List.foldl_cons]
      rw [ih]
      simp only [recreateStep]
      exact otherSymbolRows_update_order st.2 symbol _ _ _ _ _

lemma otherSymbolRows_recreate (cfg : GridConfig) (e : ExchangeView)
    (symbol : String) (grid : List GridLevel) (db : GridsDb) :
    otherSymbolRows (check_and_recreate_orders cfg e symbol grid db).2 symbol
      = otherSymbolRows db symbol := by
  simp only [check_and_recreate_orders]
  split
  · rfl
  · split
    · rfl
    · simp only [place_grid_orders]
      exact otherSymbolRows_recreateFold cfg symbol _ _ (grid, db)

lemma lookupGrid_setGrid_ne (gs : Grids) (symbol : String)
    (g : List GridLevel) (s2 : String) (h : ¬ s2 = symbol) :
    lookupGrid (setGrid gs symbol g) s2 = lookupGrid gs s2 := by
  have h2 : ∀ s0 : String, s0 = symbol → ¬ s0 = s2 := by
    intro s0 h0 hc
    exact h (by rw [← hc, h0])
  induction gs with
  | nil =>
      simp only [setGrid, lookupGrid]
      rw [if_neg (h2 symbol rfl)]
  | cons p ps ih =>
      obtain ⟨s0, g0⟩ := p
      simp only [setGrid]
      by_cases h0 : s0 = symbol
      · rw [if_pos h0]
        simp only [lookupGrid]
        rw [if_neg (h2 s0 h0), if_neg (h2 s0 h0)]
      · rw [if_neg h0]
        simp only [lookupGrid]
        by_cases h1 : s0 = s2
        · rw [if_pos h1, if_pos h1]
        · rw [if_neg h1, if_neg h1]
          exact ih

/-- Claim C9: during a tick, an error raised while querying a level's order
status or while placing a level's order is caught and treated as no change
for that level only: the pass continues over the remaining levels exactly as
if the failed level had been skipped, and processing one symbol never
touches another symbol's in-memory grid or ledger rows, so remaining symbols
are processed unaffected.  Conjuncts: (1) a query error makes `syncStep`
leave the state unchanged; (2) hence the sync loop continues with the
remaining indices on the unchanged state; (3) a failed placement leaves the
grid unchanged in `placeStep`; (4) hence the placement fold continues with
the remaining candidates; (5) the grid of every other symbol and (6) the
ledger rows of every other symbol are untouched by a symbol's
sync-and-recreate pass. -/
theorem claim_C9_failure_containment (cfg : GridConfig) (e : ExchangeView)
    (symbol : String) :
    (∀ (st : List GridLevel × GridsDb) (idx : Nat) (l : GridLevel) (oid m : String),
        st.1[idx]? = some l → l.orderId = some oid → l.status = "active" →
        e.orderQuery oid symbol = Except.error m →
        syncStep cfg e symbol st idx = st)
    ∧ (∀ (fuel idx : Nat) (st : List GridLevel × GridsDb),
        idx < st.1.length → syncStep cfg e symbol st idx = st →
        syncLoop cfg e symbol (fuel + 1) st idx
          = syncLoop cfg e symbol fuel st (idx + 1))
    ∧ (∀ (g : List GridLevel) (l : GridLevel),
        e.placeOrderRes symbol l.side l.amount l.price = none →
        placeStep e symbol g l = g)
    ∧ (∀ (g : List GridLevel) (l : GridLevel) (rest : List GridLevel),
        placeStep e symbol g l = g →
        (l :: rest).foldl (placeStep e symbol) g = rest.foldl (placeStep e symbol) g)
    ∧ (∀ (st : Grids × GridsDb) (s2 : String), ¬ s2 = symbol →
        lookupGrid (processSymbolState cfg e st symbol).1 s2 = lookupGrid st.1 s2)
    ∧ (∀ (st : Grids × GridsDb),
        otherSymbolRows (processSymbolState cfg e st symbol).2 symbol
          = otherSymbolRows st.2 symbol) := by
  refine ⟨?_, ?_, ?_, ?_, ?_, ?_⟩
  · intro st idx l oid m hl hoid hst herr
    simp only [syncStep, hl, hoid, hst, herr]
    simp
  · intro fuel idx st hidx hstep
    simp only [syncLoop]
    rw [if_pos hidx, hstep]
  · intro g l hpo
    simp [placeStep, hpo]
  · intro g l rest hstep
    simp only [List.foldl_cons, hstep]
  · intro st s2 hs2
    simp only [processSymbolState]
    cases hlg : lookupGrid st.1 symbol with
    | none => rfl
    | some g => exact lookupGrid_setGrid_ne st.1 symbol _ s2 hs2
  · intro st
    simp only [processSymbolState]
    cases hlg : lookupGrid st.1 symbol with
    | none => rfl
    | some g =>
        simp only
        rw [otherSymbolRows_recreate]
        exact otherSymbolRows_syncLoop cfg e symbol _ (g, st.2) 0

/-- Witness for C9: a dead `fetch_order` on the single active level leaves
the state untouched. -/
theorem claim_C9_witness :
    ((⟨fun _ => some 10, Except.ok (some ⟨some 1000, none, none⟩),
       fun _ => Except.ok (some ⟨some 1000, none, none⟩), Except.ok [],
       fun _ => Except.ok [], fun _ _ _ _ => none,
       fun _ _ => Except.error "down"⟩ : ExchangeView).orderQuery "o1" "S"
      = Except.error "down")
    ∧ syncStep (⟨1, 0.01, 1, 1.5, ["S"]⟩ : GridConfig)
        (⟨fun _ => some 10, Except.ok (some ⟨some 1000, none, none⟩),
          fun _ => Except.ok (some ⟨some 1000, none, none⟩), Except.ok [],
          fun _ => Except.ok [], fun _ _ _ _ => none,
          fun _ _ => Except.error "down"⟩ : ExchangeView) "S"
        ([⟨0, Side.buy, 1, 10, some "o1", "active"⟩], (⟨[], 1⟩ : GridsDb)) 0
      = ([⟨0, Side.buy, 1, 10, some "o1", "active"⟩], (⟨[], 1⟩ : GridsDb)) :=
  ⟨rfl,
   (claim_C9_failure_containment (⟨1, 0.01, 1, 1.5, ["S"]⟩ : GridConfig) _ "S").1
     ([⟨0, Side.buy, 1, 10, some "o1", "active"⟩], (⟨[], 1⟩ : GridsDb)) 0
     ⟨0, Side.buy, 1, 10, some "o1", "active"⟩ "o1" "down" rfl rfl rfl rfl⟩

/-! Ledger round-trip infrastructure (claim C8). -/

/-- Arguments of one `upsertLevel` write: symbol, level, side, amount,
price. -/
abbrev UpsArgs := String × Nat × Side × ℚ × ℚ

/-- The identity a write targets. -/
def upsKey (w : UpsArgs) : String × Nat × Side := (w.1, w.2.1, w.2.2.1)

/-- A sequence of `save_grid_to_db`-style upserts applied in order. -/
def applyUpserts (ws : List UpsArgs) (db : GridsDb) : GridsDb :=
  ws.foldl (fun d w => upsertPending d w.1 w.2.1 w.2.2.1 w.2.2.2.1 w.2.2.2.2) db

/-- Specification-side: the amount/price of the most recent (rightmost)
upsert of identity `k` in the write sequence, if any. -/
def lastUpsert : List UpsArgs → String × Nat × Side → Option (ℚ × ℚ)
  | [], _ => none
  | w :: ws, k =>
      match lastUpsert ws k with
      | some v => some v
      | none => if upsKey w = k then some (w.2.2.2.1, w.2.2.2.2) else none

lemma lastUpsert_none {ws : List UpsArgs} {k : String × Nat × Side}
    (h : lastUpsert ws k = none) : ∀ w ∈ ws, ¬ upsKey w = k := by
  induction ws with
  | nil => intro w hw; cases hw
  | cons w ws ih =>
      intro w' hw'
      simp only [lastUpsert] at h
      rcases hlast : lastUpsert ws k with _ | v
      · rw [hlast] at h
        simp only at h
        rcases List.mem_cons.mp hw' with rfl | hmem
        · intro hk
          rw [if_pos hk] at h
          cases h
        · exact ih hlast w' hmem
      · rw [hlast] at h
        cases h

lemma filter_key_map (rows : List Row) (f : Row → Row) (k : String × Nat × Side)
    (hid : ∀ r, rowKey r = k → f r = r)
    (hkey : ∀ r, rowKey (f r) = rowKey r) :
    (rows.map f).filter (fun r => decide (rowKey r = k))
      = rows.filter (fun r => decide (rowKey r = k)) := by
  induction rows with
  | nil => rfl
  | cons r rs ih =>
      by_cases hr : rowKey r = k
      · rw [List.map_cons, List.filter_cons_of_pos (by simp [hkey, hr]),
          List.filter_cons_of_pos (by simp [hr]), hid r hr, ih]
      · rw [List.map_cons, List.filter_cons_of_neg (by simp [hkey, hr]),
          List.filter_cons_of_neg (by simp [hr]), ih]

/-- The single-row update function of `upsertPending`'s conflict branch. -/
lemma upsertPending_rowKey_update (s : String) (l : Nat) (sd : Side)
    (a p : ℚ) (r : Row) :
    rowKey (if rowKey r = (s, l, sd) then
      { r with amount := a, price := p, status := "pending", orderId := none }
    else r) = rowKey r := by
  by_cases h : rowKey r = (s, l, sd)
  · rw [if_pos h]
    rfl
  · rw [if_neg h]

lemma upsertPending_filter_ne (db : GridsDb) (s : String) (l : Nat) (sd : Side)
    (a p : ℚ) (k : String × Nat × Side) (hk : ¬ k = (s, l, sd)) :
    (upsertPending db s l sd a p).rows.filter (fun r => decide (rowKey r = k))
      = db.rows.filter (fun r => decide (rowKey r = k)) := by
  unfold upsertPending
  split
  · rfl
  · split
    · apply filter_key_map
      · intro r hr
        rw [if_neg]
        intro hc
        exact hk (hr ▸ hc : k = (s, l, sd))
      · exact upsertPending_rowKey_update s l sd a p
    · rw [List.filter_append]
      rw [List.filter_cons_of_neg, List.filter_nil, List.append_nil]
      simp only [decide_eq_true_eq]
      intro hc
      exact hk (by rw [← hc]; simp [rowKey])

lemma upsertPending_key_fields (db : GridsDb) (s : String) (l : Nat) (sd : Side)
    (a p : ℚ) (hkd : keysDistinct db.rows) :
    ∀ r ∈ (upsertPending db s l sd a p).rows, rowKey r = (s, l, sd) →
      r.amount = a ∧ r.price = p ∧ r.status = "pending" ∧ r.orderId = none := by
  have hnn : ¬¬ keysDistinct db.rows := not_not_intro hkd
  by_cases hany : (db.rows.any (fun r => rowKey r = (s, l, sd)) = true)
  · unfold upsertPending
    rw [if_neg hnn, if_pos hany]
    intro r hr hk
    simp only [List.mem_map] at hr
    obtain ⟨r0, hr0, rfl⟩ := hr
    by_cases h0 : rowKey r0 = (s, l, sd)
    · simp [h0]
    · rw [if_neg h0] at hk
      exact absurd hk h0
  · unfold upsertPending
    rw [if_neg hnn, if_neg hany]
    intro r hr hk
    rcases List.mem_append.mp hr with h | h
    · exfalso
      apply hany
      rw [List.any_eq_true]
      exact ⟨r, h, by simp [hk]⟩
    · rcases List.mem_singleton.mp h with rfl
      simp

lemma upsertPending_keysDistinct (db : GridsDb) (s : String) (l : Nat)
    (sd : Side) (a p : ℚ) (hkd : keysDistinct db.rows) :
    keysDistinct (upsertPending db s l sd a p).rows := by
  have hnn : ¬¬ keysDistinct db.rows := not_not_intro hkd
  by_cases hany : (db.rows.any (fun r => rowKey r = (s, l, sd)) = true)
  · unfold upsertPending
    rw [if_neg hnn, if_pos hany]
    unfold keysDistinct at hkd ⊢
    simp only [List.pairwise_map]
    apply hkd.imp
    intro x y hxy
    rw [upsertPending_rowKey_update, upsertPending_rowKey_update]
    exact hxy
  · unfold upsertPending
    rw [if_neg hnn, if_neg hany]
    unfold keysDistinct at hkd ⊢
    rw [List.pairwise_append]
    refine ⟨hkd, List.pairwise_singleton _ _, ?_⟩
    intro r hr r' hr'
    rcases List.mem_singleton.mp hr' with rfl
    intro hkeq
    apply hany
    rw [List.any_eq_true]
    refine ⟨r, hr, ?_⟩
    simp only [decide_eq_true_eq]
    rw [hkeq]
    simp [rowKey]

lemma upsertPending_wf (db : GridsDb) (s : String) (l : Nat) (sd : Side)
    (a p : ℚ) (hwf : db.wf) : (upsertPending db s l sd a p).wf := by
  obtain ⟨hnd, hlt⟩ := hwf
  by_cases hkd : keysDistinct db.rows
  · have hnn : ¬¬ keysDistinct db.rows := not_not_intro hkd
    by_cases hany : (db.rows.any (fun r => rowKey r = (s, l, sd)) = true)
    · unfold upsertPending
      rw [if_neg hnn, if_pos hany]
      constructor
      · have hmm : (db.rows.map (fun r =>
            if rowKey r = (s, l, sd) then
              { r with amount := a, price := p, status := "pending", orderId := none }
            else r)).map Row.id = db.rows.map Row.id := by
          rw [List.map_map]
          apply List.map_congr_left
          intro r _
          by_cases h : rowKey r = (s, l, sd) <;> simp [h, Function.comp]
        exact hmm ▸ hnd
      · intro r hr
        simp only [List.mem_map] at hr
        obtain ⟨r0, h0, rfl⟩ := hr
        have := hlt r0 h0
        by_cases h : rowKey r0 = (s, l, sd) <;> simp [h] <;> exact this
    · unfold upsertPending
      rw [if_neg hnn, if_neg hany]
      constructor
      · rw [List.map_append, List.nodup_append]
        refine ⟨hnd, by simp, ?_⟩
        intro x hx
        simp only [List.mem_map] at hx
        obtain ⟨r0, h0, rfl⟩ := hx
        simp only [List.map_cons, List.map_nil, List.mem_singleton]
        exact Nat.ne_of_lt (hlt r0 h0)
      · intro r hr
        rcases List.mem_append.mp hr with h | h
        · exact Nat.lt_trans (hlt r h) (Nat.lt_succ_self _)
        · rcases List.mem_singleton.mp h with rfl
          exact Nat.lt_succ_self _
  · unfold upsertPending
    rw [if_pos hkd]
    exact ⟨hnd, hlt⟩

lemma applyUpserts_wf (ws : List UpsArgs) :
    ∀ db : GridsDb, db.wf → (applyUpserts ws db).wf := by
  induction ws with
  | nil => intro db h; exact h
  | cons w ws ih =>
      intro db h
      exact ih _ (upsertPending_wf db w.1 w.2.1 w.2.2.1 w.2.2.2.1 w.2.2.2.2 h)

lemma applyUpserts_keysDistinct (ws : List UpsArgs) :
    ∀ db : GridsDb, keysDistinct db.rows →
      keysDistinct (applyUpserts ws db).rows := by
  induction ws with
  | nil => intro db h; exact h
  | cons w ws ih =>
      intro db h
      exact ih _ (upsertPending_keysDistinct db w.1 w.2.1 w.2.2.1 w.2.2.2.1 w.2.2.2.2 h)

lemma applyUpserts_filter_frame (ws : List UpsArgs) (k : String × Nat × Side)
    (hk : ∀ w ∈ ws, ¬ upsKey w = k) :
    ∀ db : GridsDb,
      (applyUpserts ws db).rows.filter (fun r => decide (rowKey r = k))
        = db.rows.filter (fun r => decide (rowKey r = k)) := by
  induction ws with
  | nil => intro db; rfl
  | cons w ws ih =>
      intro db
      have h1 := hk w (List.mem_cons_self w ws)
      have h2 : ∀ w' ∈ ws, ¬ upsKey w' = k :=
        fun w' hw' => hk w' (List.mem_cons_of_mem w hw')
      rw [show applyUpserts (w :: ws) db
            = applyUpserts ws (upsertPending db w.1 w.2.1 w.2.2.1 w.2.2.2.1 w.2.2.2.2)
          from rfl,
        ih h2, upsertPending_filter_ne]
      intro hc
      exact h1 (by rw [upsKey, ← hc])

lemma applyUpserts_last (ws : List UpsArgs) :
    ∀ db : GridsDb, keysDistinct db.rows →
      ∀ (k : String × Nat × Side) (a p : ℚ), lastUpsert ws k = some (a, p) →
        ∀ r ∈ (applyUpserts ws db).rows, rowKey r = k →
          r.amount = a ∧ r.price = p ∧ r.status = "pending" ∧ r.orderId = none := by
  induction ws with
  | nil =>
      intro db _ k a p h
      cases h
  | cons w ws ih =>
      intro db hkd k a p h r hr hk
      have hkd' := upsertPending_keysDistinct db w.1 w.2.1 w.2.2.1 w.2.2.2.1 w.2.2.2.2 hkd
      simp only [lastUpsert] at h
      rcases hlast : lastUpsert ws k with _ | v
      · rw [hlast] at h
        simp only at h
        by_cases hwk : upsKey w = k
        · rw [if_pos hwk] at h
          have hargs : w.2.2.2.1 = a ∧ w.2.2.2.2 = p := by
            cases h; exact ⟨rfl, rfl⟩
          -- no later write touches k, so the row still carries w's fields
          have hframe := applyUpserts_filter_frame ws k (lastUpsert_none hlast)
            (upsertPending db w.1 w.2.1 w.2.2.1 w.2.2.2.1 w.2.2.2.2)
          have hrmem : r ∈ (applyUpserts ws
              (upsertPending db w.1 w.2.1 w.2.2.1 w.2.2.2.1 w.2.2.2.2)).rows.filter
              (fun r => decide (rowKey r = k)) :=
            List.mem_filter.mpr ⟨hr, by simp [hk]⟩
          rw [hframe] at hrmem
          have hr2 := List.mem_filter.mp hrmem
          have hfields := upsertPending_key_fields db w.1 w.2.1 w.2.2.1
            w.2.2.2.1 w.2.2.2.2 hkd r hr2.1
            (by
              have : rowKey r = k := by simpa using hr2.2
              rw [this, ← hwk]
              rfl)
          rw [hargs.1, hargs.2] at hfields
          exact hfields
        · rw [if_neg hwk] at h
          cases h
      · rw [hlast] at h
        have hv : v = (a, p) := by cases h; rfl
        subst hv
        exact ih _ hkd' k a p hlast r hr hk

lemma mem_keepLatest {rows : List Row} {r : Row} (h : r ∈ keepLatest rows) :
    r ∈ rows ∧ ∀ s ∈ rows, rowKey s = rowKey r → s.id ≤ r.id := by
  refine ⟨List.mem_of_mem_filter h, ?_⟩
  have hl := List.of_mem_filter h
  unfold isLatestRow at hl
  rw [List.all_eq_true] at hl
  intro s hs hkey
  have := hl s hs
  simp only [hkey, decide_eq_true_eq, Bool.or_eq_true, Bool.not_eq_true',
    decide_eq_false_iff_not] at this
  rcases this with h1 | h2
  · exact absurd trivial h1
  · exact h2

lemma latest_mem_keepLatest {rows : List Row} {m : Row} (hm : m ∈ rows)
    (hmax : ∀ s ∈ rows, rowKey s = rowKey m → s.id ≤ m.id) :
    m ∈ keepLatest rows := by
  apply List.mem_filter.mpr
  refine ⟨hm, ?_⟩
  unfold isLatestRow
  rw [List.all_eq_true]
  intro s hs
  by_cases hk : rowKey s = rowKey m
  · simp [hk, hmax s hs]
  · simp [hk]

lemma exists_max_id (l : List Row) : l ≠ [] → ∃ m ∈ l, ∀ s ∈ l, s.id ≤ m.id := by
  induction l with
  | nil => intro h; exact absurd rfl h
  | cons r rs ih =>
      intro _
      by_cases hrs : rs = []
      · subst hrs
        refine ⟨r, List.mem_singleton_self r, ?_⟩
        intro s hs
        rcases List.mem_singleton.mp hs with rfl
        exact le_rfl
      · obtain ⟨m, hm, hmax⟩ := ih hrs
        by_cases hrm : r.id ≤ m.id
        · refine ⟨m, List.mem_cons_of_mem r hm, ?_⟩
          intro s hs
          rcases List.mem_cons.mp hs with rfl | hs
          · exact hrm
          · exact hmax s hs
        · refine ⟨r, List.mem_cons_self r rs, ?_⟩
          intro s hs
          rcases List.mem_cons.mp hs with rfl | hs
          · exact le_rfl
          · exact le_trans (hmax s hs) (le_of_not_le hrm)

lemma mem_rowsForSymbol {rows : List Row} {sym : String} {r : Row} :
    r ∈ rowsForSymbol rows sym ↔ r ∈ rows ∧ r.symbol = sym := by
  unfold rowsForSymbol
  rw [List.Perm.mem_iff (List.perm_insertionSort _ _)]
  simp [List.mem_filter]

lemma keepLatest_pairwise_ne {rows : List Row}
    (hids : rows.Pairwise (fun a b => a.id ≠ b.id)) :
    (keepLatest rows).Pairwise (fun a b => rowKey a ≠ rowKey b) := by
  have hkl : (keepLatest rows).Pairwise (fun a b => a.id ≠ b.id) :=
    hids.filter _
  apply List.Pairwise.imp_of_mem ?_ hkl
  intro a b ha hb hid hkeq
  have ha2 := mem_keepLatest ha
  have hb2 := mem_keepLatest hb
  have h1 : a.id ≤ b.id := hb2.2 a ha2.1 hkeq
  have h2 : b.id ≤ a.id := ha2.2 b hb2.1 hkeq.symm
  exact hid (le_antisymm h1 h2)

instance rowSortKeyTotal : IsTotal Row (fun a b => rowSortKey a ≤ rowSortKey b) :=
  ⟨fun a b => le_total _ _⟩

instance rowSortKeyTrans : IsTrans Row (fun a b => rowSortKey a ≤ rowSortKey b) :=
  ⟨fun _ _ _ => le_trans⟩

/-- Claim C8: after any sequence of upsert writes — including upserting the
same level twice and including pre-existing legacy duplicate rows — loading
the grid of a symbol returns exactly one row per identity
`(symbol, levelIndex, side)`, sorted by `(levelIndex, side)`, and that row
is the most recently written one: it is the maximal-id row of its identity
group (legacy duplicates are compacted to the freshest row), and when the
ledger satisfies the uniqueness constraint, a row whose identity was
upserted carries exactly the last upsert's amount and price with status
"pending" and no order reference. -/
theorem claim_C8_ledger_round_trip (db0 : GridsDb) (ws : List UpsArgs)
    (sym : String) (hwf : db0.wf) :
    ((rowsForSymbol (keepLatest (applyUpserts ws db0).rows) sym).Pairwise
        (fun a b => rowSortKey a ≤ rowSortKey b))
    ∧ ((rowsForSymbol (keepLatest (applyUpserts ws db0).rows) sym).Pairwise
        (fun a b => rowKey a ≠ rowKey b))
    ∧ (∀ r ∈ (applyUpserts ws db0).rows, r.symbol = sym →
        ∃ r' ∈ rowsForSymbol (keepLatest (applyUpserts ws db0).rows) sym, rowKey r' = rowKey r)
    ∧ (∀ r' ∈ rowsForSymbol (keepLatest (applyUpserts ws db0).rows) sym,
        r' ∈ (applyUpserts ws db0).rows
        ∧ ∀ r ∈ (applyUpserts ws db0).rows, rowKey r = rowKey r' → r.id ≤ r'.id)
    ∧ (keysDistinct db0.rows →
        ∀ r' ∈ rowsForSymbol (keepLatest (applyUpserts ws db0).rows) sym, ∀ a p,
          lastUpsert ws (rowKey r') = some (a, p) →
          r'.amount = a ∧ r'.price = p ∧ r'.status = "pending"
            ∧ r'.orderId = none) := by
  have hdwf : (applyUpserts ws db0).wf := applyUpserts_wf ws db0 hwf
  have hids : (applyUpserts ws db0).rows.Pairwise (fun a b => a.id ≠ b.id) :=
    List.pairwise_map.mp hdwf.1
  refine ⟨?_, ?_, ?_, ?_, ?_⟩
  · exact List.sorted_insertionSort _ _
  · unfold rowsForSymbol
    apply (List.Perm.pairwise_iff (fun h => Ne.symm h)
      (List.perm_insertionSort _ _)).mpr
    exact (keepLatest_pairwise_ne hids).filter _
  · intro r hr hsym
    have hgrp : r ∈ (applyUpserts ws db0).rows.filter
        (fun s => decide (rowKey s = rowKey r)) :=
      List.mem_filter.mpr ⟨hr, by simp⟩
    have hne : (applyUpserts ws db0).rows.filter
        (fun s => decide (rowKey s = rowKey r)) ≠ [] :=
      List.ne_nil_of_mem hgrp
    obtain ⟨m, hm, hmax⟩ := exists_max_id _ hne
    have hm2 := List.mem_filter.mp hm
    have hmk : rowKey m = rowKey r := by simpa using hm2.2
    have hmmax : ∀ s ∈ (applyUpserts ws db0).rows, rowKey s = rowKey m → s.id ≤ m.id := by
      intro s hs hsk
      exact hmax s (List.mem_filter.mpr ⟨hs, by simp [hsk, hmk]⟩)
    have hmkl : m ∈ keepLatest (applyUpserts ws db0).rows :=
      latest_mem_keepLatest hm2.1 hmmax
    have hmsym : m.symbol = sym := by
      have := congrArg Prod.fst hmk
      simp only [rowKey] at this
      rw [this, hsym]
    exact ⟨m, mem_rowsForSymbol.mpr ⟨hmkl, hmsym⟩, hmk⟩
  · intro r' hr'
    have h1 := (mem_rowsForSymbol.mp hr').1
    have h2 := mem_keepLatest h1
    exact h2
  · intro hkd r' hr' a p hlast
    have h1 := (mem_rowsForSymbol.mp hr').1
    have h2 := (mem_keepLatest h1).1
    exact applyUpserts_last ws db0 hkd (rowKey r') a p hlast r' h2 rfl

/-- Witness for C8: one existing row for `("A", 0, buy)`, two upserts of that
same identity; the loaded row carries the second upsert's state. -/
theorem claim_C8_witness :
    (⟨[⟨1, "A", 0, Side.buy, 5, 5, none, "active"⟩], 2⟩ : GridsDb).wf
    ∧ (keysDistinct (⟨[⟨1, "A", 0, Side.buy, 5, 5, none, "active"⟩], 2⟩ : GridsDb).rows →
        ∀ r' ∈ rowsForSymbol (keepLatest (applyUpserts
            [("A", 0, Side.buy, 1, 7), ("A", 0, Side.buy, 2, 8)]
            (⟨[⟨1, "A", 0, Side.buy, 5, 5, none, "active"⟩], 2⟩ : GridsDb)).rows) "A",
          ∀ a p,
          lastUpsert [("A", 0, Side.buy, 1, 7), ("A", 0, Side.buy, 2, 8)]
              (rowKey r') = some (a, p) →
          r'.amount = a ∧ r'.price = p ∧ r'.status = "pending"
            ∧ r'.orderId = none) :=
  ⟨⟨by decide, by decide⟩,
   (claim_C8_ledger_round_trip
      (⟨[⟨1, "A", 0, Side.buy, 5, 5, none, "active"⟩], 2⟩ : GridsDb)
      [("A", 0, Side.buy, 1, 7), ("A", 0, Side.buy, 2, 8)] "A"
      ⟨by decide, by decide⟩).2.2.2.2⟩

end GridBot
